import Mathlib

/-!
Verification of the DICOM de-identification core of the medical-imaging
pipeline (`src/ingestion/deidentifier.py`), as a shallow embedding.

The embedding translates the Python source faithfully:
* `hashlib.sha256` / `hashlib.md5` are implemented bit-for-bit over UTF-8
  byte lists (validated against standard test vectors below);
* `datetime.strptime("%Y%m%d")` / `strftime` / `timedelta` arithmetic are
  modelled with proleptic-Gregorian day-number conversions; `strftime` on
  CPython/glibc does not zero-pad `%Y`, which the model reproduces;
* a `pydicom` dataset is modelled as an association list of standard
  (keyword, string-value) elements plus a list of private elements;
* exceptions are modelled with `Except`: `int()` on a non-numeric string is
  `ValueError`, a shifted date outside years 1-9999 is `OverflowError`
  (which `_shift_date` does not catch).
-/

set_option maxRecDepth 100000
set_option maxHeartbeats 1600000

/-- Mask bound for 32-bit modular arithmetic. -/
def M32 : Nat := 4294967296

/-- UTF-8 encoding of one character, as a list of byte values. -/
def utf8Bytes (c : Char) : List Nat :=
  let n := c.toNat
  if n < 128 then [n]
  else if n < 2048 then [192 + n / 64, 128 + n % 64]
  else if n < 65536 then [224 + n / 4096, 128 + n / 64 % 64, 128 + n % 64]
  else [240 + n / 262144, 128 + n / 4096 % 64, 128 + n / 64 % 64, 128 + n % 64]

/-- UTF-8 bytes of a string, as Python's `str.encode()` produces them. -/
def strBytes (s : String) : List Nat := (s.data.map utf8Bytes).flatten

/-- Big-endian byte expansion of `n` to `k` bytes. -/
def natBytesBE (k n : Nat) : List Nat :=
  (List.range k).map (fun i => n / 2 ^ (8 * (k - 1 - i)) % 256)

/-- Little-endian byte expansion of `n` to `k` bytes. -/
def natBytesLE (k n : Nat) : List Nat :=
  (List.range k).map (fun i => n / 2 ^ (8 * i) % 256)

/-- Merkle-Damgard padding shared by SHA-256 and MD5: a 0x80 byte, zeros to
56 mod 64, then the 8-byte bit length (endianness supplied by the caller). -/
def padMsg (lenBytes : List Nat) (m : List Nat) : List Nat :=
  m ++ [128] ++ List.replicate ((119 - m.length % 64) % 64) 0 ++ lenBytes

/-- Big-endian 32-bit words of a byte list. -/
def wordsBE : List Nat → List Nat
  | a :: b :: c :: d :: rest => (((a * 256 + b) * 256 + c) * 256 + d) :: wordsBE rest
  | _ => []

/-- Little-endian 32-bit words of a byte list. -/
def wordsLE : List Nat → List Nat
  | a :: b :: c :: d :: rest => (((d * 256 + c) * 256 + b) * 256 + a) :: wordsLE rest
  | _ => []

/-- 32-bit rotate right. -/
def rotr (n x : Nat) : Nat := x / 2 ^ n + x % 2 ^ n * 2 ^ (32 - n)

/-- 32-bit rotate left. -/
def rotl (n x : Nat) : Nat := x % 2 ^ (32 - n) * 2 ^ n + x / 2 ^ (32 - n)

/-- SHA-256 choice function (`(x AND y) XOR (NOT x AND z)`); the complement of
a value below `2^32` is `4294967295 - x`. -/
def shaCh (x y z : Nat) : Nat := (x &&& y) ^^^ ((4294967295 - x) &&& z)

/-- SHA-256 majority function. -/
def shaMaj (x y z : Nat) : Nat := (x &&& y) ^^^ (x &&& z) ^^^ (y &&& z)

/-- SHA-256 big sigma 0. -/
def shaS0 (x : Nat) : Nat := rotr 2 x ^^^ rotr 13 x ^^^ rotr 22 x

/-- SHA-256 big sigma 1. -/
def shaS1 (x : Nat) : Nat := rotr 6 x ^^^ rotr 11 x ^^^ rotr 25 x

/-- SHA-256 small sigma 0. -/
def shas0 (x : Nat) : Nat := rotr 7 x ^^^ rotr 18 x ^^^ (x >>> 3)

/-- SHA-256 small sigma 1. -/
def shas1 (x : Nat) : Nat := rotr 17 x ^^^ rotr 19 x ^^^ (x >>> 10)

/-- The 64 SHA-256 round constants. -/
def shaK : List Nat := [
  1116352408, 1899447441, 3049323471, 3921009573, 961987163, 1508970993, 2453635748, 2870763221,
  3624381080, 310598401, 607225278, 1426881987, 1925078388, 2162078206, 2614888103, 3248222580,
  3835390401, 4022224774, 264347078, 604807628, 770255983, 1249150122, 1555081692, 1996064986,
  2554220882, 2821834349, 2952996808, 3210313671, 3336571891, 3584528711, 113926993, 338241895,
  666307205, 773529912, 1294757372, 1396182291, 1695183700, 1986661051, 2177026350, 2456956037,
  2730485921, 2820302411, 3259730800, 3345764771, 3516065817, 3600352804, 4094571909, 275423344,
  430227734, 506948616, 659060556, 883997877, 958139571, 1322822218, 1537002063, 1747873779,
  1955562222, 2024104815, 2227730452, 2361852424, 2428436474, 2756734187, 3204031479, 3329325298]

/-- Message-schedule extension: append `n` further words to the 16 block words. -/
def extendW : Nat → List Nat → List Nat
  | 0, w => w
  | n + 1, w =>
    let t := w.length
    let x := (shas1 (w.getD (t - 2) 0) + w.getD (t - 7) 0
              + shas0 (w.getD (t - 15) 0) + w.getD (t - 16) 0) % M32
    extendW n (w ++ [x])

/-- The 64 SHA-256 rounds over working variables `a`..`h`. -/
def shaRounds : List Nat → List Nat → Nat → Nat → Nat → Nat → Nat → Nat → Nat → Nat → List Nat
  | k :: ks, w :: ws, a, b, c, d, e, f, g, h =>
    let t1 := (h + shaS1 e + shaCh e f g + k + w) % M32
    let t2 := (shaS0 a + shaMaj a b c) % M32
    shaRounds ks ws ((t1 + t2) % M32) a b c ((d + t1) % M32) e f g
  | _, _, a, b, c, d, e, f, g, h => [a, b, c, d, e, f, g, h]

/-- Pointwise addition modulo `2^32`. -/
def zipAdd32 : List Nat → List Nat → List Nat
  | x :: xs, y :: ys => (x + y) % M32 :: zipAdd32 xs ys
  | _, _ => []

/-- Fold the SHA-256 compression function over the 16-word blocks. -/
def shaBlocks : List Nat → List Nat → List Nat
  | h, w0 :: w1 :: w2 :: w3 :: w4 :: w5 :: w6 :: w7 ::
      w8 :: w9 :: w10 :: w11 :: w12 :: w13 :: w14 :: w15 :: rest =>
    let w := extendW 48 [w0, w1, w2, w3, w4, w5, w6, w7, w8, w9, w10, w11, w12, w13, w14, w15]
    let r := shaRounds shaK w (h.getD 0 0) (h.getD 1 0) (h.getD 2 0) (h.getD 3 0)
      (h.getD 4 0) (h.getD 5 0) (h.getD 6 0) (h.getD 7 0)
    shaBlocks (zipAdd32 h r) rest
  | h, _ => h

/-- SHA-256 digest (32 bytes) of a byte list. -/
def sha256Bytes (m : List Nat) : List Nat :=
  let padded := padMsg (natBytesBE 8 (m.length * 8)) m
  let h := shaBlocks [1779033703, 3144134277, 1013904242, 2773480762,
                      1359893119, 2600822924, 528734635, 1541459225] (wordsBE padded)
  (h.map (natBytesBE 4)).flatten

/-- Lower-case hex character of a value below 16. -/
def hexChar (n : Nat) : Char := if n < 10 then Char.ofNat (48 + n) else Char.ofNat (87 + n)

/-- Lower-case hex string of a byte list, as `hexdigest()` renders it. -/
def bytesHex (bs : List Nat) : String :=
  ⟨(bs.map (fun b => [hexChar (b / 16), hexChar (b % 16)])).flatten⟩

/-- `hashlib.sha256(s.encode()).hexdigest()`. -/
def sha256HexStr (s : String) : String := bytesHex (sha256Bytes (strBytes s))

/-- The 64 MD5 round constants (`floor(abs(sin(i+1)) * 2^32)`). -/
def md5K : List Nat := [
  3614090360, 3905402710, 606105819, 3250441966, 4118548399, 1200080426, 2821735955, 4249261313,
  1770035416, 2336552879, 4294925233, 2304563134, 1804603682, 4254626195, 2792965006, 1236535329,
  4129170786, 3225465664, 643717713, 3921069994, 3593408605, 38016083, 3634488961, 3889429448,
  568446438, 3275163606, 4107603335, 1163531501, 2850285829, 4243563512, 1735328473, 2368359562,
  4294588738, 2272392833, 1839030562, 4259657740, 2763975236, 1272893353, 4139469664, 3200236656,
  681279174, 3936430074, 3572445317, 76029189, 3654602809, 3873151461, 530742520, 3299628645,
  4096336452, 1126891415, 2878612391, 4237533241, 1700485571, 2399980690, 4293915773, 2240044497,
  1873313359, 4264355552, 2734768916, 1309151649, 4149444226, 3174756917, 718787259, 3951481745]

/-- The MD5 per-round left-rotation amounts. -/
def md5S : List Nat := [
  7, 12, 17, 22, 7, 12, 17, 22, 7, 12, 17, 22, 7, 12, 17, 22,
  5, 9, 14, 20, 5, 9, 14, 20, 5, 9, 14, 20, 5, 9, 14, 20,
  4, 11, 16, 23, 4, 11, 16, 23, 4, 11, 16, 23, 4, 11, 16, 23,
  6, 10, 15, 21, 6, 10, 15, 21, 6, 10, 15, 21, 6, 10, 15, 21]

/-- The MD5 nonlinear function for round `i`. -/
def md5F (i b c d : Nat) : Nat :=
  if i < 16 then (b &&& c) ||| ((4294967295 - b) &&& d)
  else if i < 32 then (d &&& b) ||| ((4294967295 - d) &&& c)
  else if i < 48 then b ^^^ c ^^^ d
  else c ^^^ (b ||| (4294967295 - d))

/-- The MD5 message-word index for round `i`. -/
def md5G (i : Nat) : Nat :=
  if i < 16 then i
  else if i < 32 then (5 * i + 1) % 16
  else if i < 48 then (3 * i + 5) % 16
  else 7 * i % 16

/-- The 64 MD5 rounds over working variables `a`..`d`. -/
def md5Rounds : List Nat → List Nat → Nat → List Nat → Nat → Nat → Nat → Nat → List Nat
  | k :: ks, s :: ss, i, m, a, b, c, d =>
    let f := (md5F i b c d + a + k + m.getD (md5G i) 0) % M32
    md5Rounds ks ss (i + 1) m d ((b + rotl s f) % M32) b c
  | _, _, _, _, a, b, c, d => [a, b, c, d]

/-- Fold the MD5 compression function over the 16-word blocks. -/
def md5Blocks : List Nat → List Nat → List Nat
  | h, w0 :: w1 :: w2 :: w3 :: w4 :: w5 :: w6 :: w7 ::
      w8 :: w9 :: w10 :: w11 :: w12 :: w13 :: w14 :: w15 :: rest =>
    let m := [w0, w1, w2, w3, w4, w5, w6, w7, w8, w9, w10, w11, w12, w13, w14, w15]
    let r := md5Rounds md5K md5S 0 m (h.getD 0 0) (h.getD 1 0) (h.getD 2 0) (h.getD 3 0)
    md5Blocks (zipAdd32 h r) rest
  | h, _ => h

/-- MD5 digest (16 bytes) of a byte list. -/
def md5Bytes (m : List Nat) : List Nat :=
  let padded := padMsg (natBytesLE 8 (m.length * 8)) m
  let h := md5Blocks [1732584193, 4023233417, 2562383102, 271733878] (wordsLE padded)
  (h.map (natBytesLE 4)).flatten

/-- Python's `int(hashlib.md5(s.encode()).hexdigest(), 16)`: the digest bytes
read as one big-endian integer. -/
def md5IntOfString (s : String) : Nat :=
  (md5Bytes (strBytes s)).foldl (fun a b => a * 256 + b) 0

/-- Decimal value of a list of ASCII digit characters. -/
def digitsVal (cs : List Char) : Nat := cs.foldl (fun a c => a * 10 + (c.toNat - 48)) 0

/-- Python's `int(s)` on a string: an optional sign followed by one or more
ASCII digits; anything else raises `ValueError` (modelled as `none`).
Surrounding whitespace and underscore digit separators, which Python also
accepts, are not modelled; no value in this development contains them. -/
def pyIntOfString (s : String) : Option Int :=
  match s.data with
  | [] => none
  | c :: rest =>
    if c = '-' then
      if rest ≠ [] ∧ rest.all Char.isDigit then some (-(digitsVal rest : Int)) else none
    else if c = '+' then
      if rest ≠ [] ∧ rest.all Char.isDigit then some (digitsVal rest) else none
    else
      if (c :: rest).all Char.isDigit then some (digitsVal (c :: rest)) else none

/-- SHA-256 standard test vector. -/
theorem sha256_abc :
    sha256HexStr "abc" = "ba7816bf8f01cfea414140de5dae2223b00361a396177a9cb410ff61f20015ad" := by
  decide

/-- MD5 standard test vector. -/
theorem md5_abc : bytesHex (md5Bytes (strBytes "abc")) = "900150983cd24fb0d6963f7d28e17f72" := by
  decide

/-- Gregorian leap-year test, as `datetime` implements it. -/
def leapYear (y : Nat) : Bool := y % 4 == 0 && (y % 100 != 0 || y % 400 == 0)

/-- Days in month `m` of year `y` (proleptic Gregorian). -/
def daysInMonth (y m : Nat) : Nat :=
  if m = 2 then if leapYear y then 29 else 28
  else if m = 4 ∨ m = 6 ∨ m = 9 ∨ m = 11 then 30 else 31

/-- A (year, month, day) triple `datetime` accepts (year bounded separately). -/
def validYmd (y m d : Nat) : Prop :=
  1 ≤ y ∧ 1 ≤ m ∧ m ≤ 12 ∧ 1 ≤ d ∧ d ≤ daysInMonth y m

instance (y m d : Nat) : Decidable (validYmd y m d) := by
  unfold validYmd; infer_instance

/-- Day count from the start of March-based year `n` of an era to the era
start: `365 n` plus the leap days among the first `n` shifted years. -/
def yearStartD (n : Nat) : Nat := 365 * n + n / 4 - n / 100 + n / 400

/-- Day-of-shifted-year of the first day of shifted month `mp`
(`mp = 0` is March, `mp = 11` is February). -/
def monthStartD (mp : Nat) : Nat := (153 * mp + 2) / 5

/-- Numerator of the year-of-era recovery formula. -/
def yoeNum (doe : Nat) : Nat := doe - doe / 1460 + doe / 36524 - doe / 146096

/-- Day number of a civil date, counted from 0000-03-01 (proleptic
Gregorian); the standard era decomposition of calendar arithmetic. -/
def daysFromCivil (y m d : Nat) : Nat :=
  let yA := y - (if m ≤ 2 then 1 else 0)
  let era := yA / 400
  let yoe := yA % 400
  let mp := (m + 9) % 12
  era * 146097 + (yearStartD yoe + (monthStartD mp + (d - 1)))

/-- Civil date of a day number counted from 0000-03-01 (inverse of
`daysFromCivil`). -/
def civilFromDays (z : Nat) : Nat × Nat × Nat :=
  let era := z / 146097
  let doe := z % 146097
  let yoe := yoeNum doe / 365
  let doy := doe - yearStartD yoe
  let mp := (5 * doy + 2) / 153
  let dd := doy - monthStartD mp + 1
  let m := if mp < 10 then mp + 3 else mp - 9
  (era * 400 + yoe + (if m ≤ 2 then 1 else 0), m, dd)

/-- Day number of `datetime.min` (0001-01-01). -/
def minOrd : Nat := daysFromCivil 1 1 1

/-- Day number of `datetime.max`'s date (9999-12-31). -/
def maxOrd : Nat := daysFromCivil 9999 12 31

theorem minOrd_eq : minOrd = 306 := by decide

theorem maxOrd_eq : maxOrd = 3652364 := by decide

theorem yoeNum_mono {a b : Nat} (h : a ≤ b) : yoeNum a ≤ yoeNum b := by
  simp only [yoeNum]; omega

/-- Incremental form of `yearStartD`, used to avoid repeated reasoning about
three simultaneous divisions. -/
theorem ysd_step (n : Nat) : yearStartD (n + 1) = yearStartD n + 365 +
    ((if 4 ∣ (n + 1) then 1 else 0) + (if 400 ∣ (n + 1) then 1 else 0)
      - (if 100 ∣ (n + 1) then 1 else 0)) := by
  simp only [yearStartD, Nat.succ_div]
  split <;> split <;> split <;> omega

theorem yearStartD_succ_ge (n : Nat) : yearStartD n ≤ yearStartD (n + 1) := by
  rw [ysd_step]
  have i1 : 100 ∣ (n + 1) → 4 ∣ (n + 1) := fun g => dvd_trans (by norm_num) g
  have i2 : 400 ∣ (n + 1) → 100 ∣ (n + 1) := fun g => dvd_trans (by norm_num) g
  split <;> split <;> split <;> omega

theorem yearStartD_mono {a b : Nat} (h : a ≤ b) : yearStartD a ≤ yearStartD b :=
  monotone_nat_of_le_succ yearStartD_succ_ge h

theorem monthStartD_mono {a b : Nat} (h : a ≤ b) : monthStartD a ≤ monthStartD b := by
  simp only [monthStartD]; omega

/-- The recovery formula brackets each year of the era correctly at both
endpoints (checked by evaluation over the 400 years of one era). -/
theorem yearEndpoints : ∀ yoe < 400,
    365 * yoe ≤ yoeNum (yearStartD yoe) ∧
    yoeNum (yearStartD (yoe + 1) - 1) < 365 * (yoe + 1) := by decide

/-- Year-of-era recovery: the formula returns `yoe` on every day of shifted
year `yoe`. -/
theorem yoe_recover (yoe doy : Nat) (h1 : yoe ≤ 399)
    (h2 : doy < yearStartD (yoe + 1) - yearStartD yoe) :
    yoeNum (yearStartD yoe + doy) / 365 = yoe := by
  have h3 := yearEndpoints yoe (by omega)
  have m1 : yoeNum (yearStartD yoe) ≤ yoeNum (yearStartD yoe + doy) := yoeNum_mono (by omega)
  have m2 : yoeNum (yearStartD yoe + doy) ≤ yoeNum (yearStartD (yoe + 1) - 1) :=
    yoeNum_mono (by omega)
  omega

/-- A shifted year is 365 or 366 days long. -/
theorem ysd_bounds (n : Nat) :
    365 ≤ yearStartD (n + 1) - yearStartD n ∧ yearStartD (n + 1) - yearStartD n ≤ 366 := by
  rw [ysd_step]
  have i1 : 100 ∣ (n + 1) → 4 ∣ (n + 1) := fun g => dvd_trans (by norm_num) g
  have i2 : 400 ∣ (n + 1) → 100 ∣ (n + 1) := fun g => dvd_trans (by norm_num) g
  split <;> split <;> split <;> omega

/-- A shifted year whose following civil year is leap is 366 days long. -/
theorem ysd_leap (n : Nat)
    (h : (n + 1) % 4 = 0 ∧ ((n + 1) % 100 ≠ 0 ∨ (n + 1) % 400 = 0)) :
    yearStartD (n + 1) - yearStartD n = 366 := by
  rw [ysd_step]
  have i1 : 100 ∣ (n + 1) → 4 ∣ (n + 1) := fun g => dvd_trans (by norm_num) g
  have i2 : 400 ∣ (n + 1) → 100 ∣ (n + 1) := fun g => dvd_trans (by norm_num) g
  split <;> split <;> split <;> omega

/-- A shifted year whose following civil year is not leap is 365 days long. -/
theorem ysd_notleap (n : Nat)
    (h : ¬((n + 1) % 4 = 0 ∧ ((n + 1) % 100 ≠ 0 ∨ (n + 1) % 400 = 0))) :
    yearStartD (n + 1) - yearStartD n = 365 := by
  rw [ysd_step]
  have i1 : 100 ∣ (n + 1) → 4 ∣ (n + 1) := fun g => dvd_trans (by norm_num) g
  have i2 : 400 ∣ (n + 1) → 100 ∣ (n + 1) := fun g => dvd_trans (by norm_num) g
  split <;> split <;> split <;> omega

/-- Every day-of-era below 146097 falls inside some shifted year. -/
theorem doe_cover : ∀ n : Nat, ∀ doe < yearStartD n,
    ∃ yoe, yoe < n ∧ yearStartD yoe ≤ doe ∧ doe < yearStartD (yoe + 1) := by
  intro n
  induction n with
  | zero => intro doe h; simp [yearStartD] at h
  | succ k ih =>
    intro doe h
    by_cases hd : doe < yearStartD k
    · obtain ⟨yoe, g1, g2, g3⟩ := ih doe hd
      exact ⟨yoe, by omega, g2, g3⟩
    · exact ⟨k, by omega, by omega, h⟩

theorem yearStartD_400 : yearStartD 400 = 146097 := by decide

/-- Month recovery: the formula returns `mp` on every nominal day of shifted
month `mp`. -/
theorem mp_recover (mp dd : Nat) (h1 : mp ≤ 11) (h2 : 1 ≤ dd)
    (h3 : dd ≤ monthStartD (mp + 1) - monthStartD mp) :
    (5 * (monthStartD mp + (dd - 1)) + 2) / 153 = mp := by
  simp only [monthStartD] at *
  interval_cases mp <;> omega

/-- Every day-of-shifted-year splits into a shifted month and a day in its
nominal range. -/
theorem doy_split : ∀ doy < 366,
    (5 * doy + 2) / 153 ≤ 11 ∧ monthStartD ((5 * doy + 2) / 153) ≤ doy ∧
      doy < monthStartD ((5 * doy + 2) / 153 + 1) := by decide

/-- Month reconstruction inverts the shifted-month map. -/
theorem month_back (mp : Nat) (h : mp ≤ 11) :
    ((if mp < 10 then mp + 3 else mp - 9) + 9) % 12 = mp := by
  split <;> omega

/-- For shifted months other than February, the lengths of the 153-day
pattern agree with the calendar month lengths. -/
theorem dim_pattern (mp : Nat) (h : mp ≤ 10) (y : Nat) :
    daysInMonth y (if mp < 10 then mp + 3 else mp - 9) =
      monthStartD (mp + 1) - monthStartD mp := by
  interval_cases mp <;> simp [daysInMonth, monthStartD]

/-- Leap status of civil year `era * 400 + yoe + 1` depends only on the
position `yoe` in the era. -/
theorem leap_link (era yoe : Nat) :
    leapYear (era * 400 + yoe + 1) = true ↔
      ((yoe + 1) % 4 = 0 ∧ ((yoe + 1) % 100 ≠ 0 ∨ (yoe + 1) % 400 = 0)) := by
  simp only [leapYear, Bool.and_eq_true, beq_iff_eq, bne_iff_ne, Bool.or_eq_true]
  omega

theorem year_unique {a b x : Nat} (ha : yearStartD a ≤ x) (ha2 : x < yearStartD (a + 1))
    (hb : yearStartD b ≤ x) (hb2 : x < yearStartD (b + 1)) : a = b := by
  by_contra hne
  rcases Nat.lt_or_ge a b with h | h
  · have := yearStartD_mono (show a + 1 ≤ b by omega)
    omega
  · have hlt : b < a := by omega
    have := yearStartD_mono (show b + 1 ≤ a by omega)
    omega

theorem month_unique {a b x : Nat} (ha : monthStartD a ≤ x) (ha2 : x < monthStartD (a + 1))
    (hb : monthStartD b ≤ x) (hb2 : x < monthStartD (b + 1)) : a = b := by
  by_contra hne
  rcases Nat.lt_or_ge a b with h | h
  · have := monthStartD_mono (show a + 1 ≤ b by omega)
    omega
  · have hlt : b < a := by omega
    have := monthStartD_mono (show b + 1 ≤ a by omega)
    omega

/-- Structural decomposition of `civilFromDays`: every day number splits into
era, year-of-era, day-of-year and shifted month, and `civilFromDays` returns
exactly the civil date these describe. -/
theorem civil_decomp (z : Nat) :
    ∃ era yoe doy mp, yoe ≤ 399 ∧ mp ≤ 11 ∧
      z = era * 146097 + (yearStartD yoe + doy) ∧
      doy < yearStartD (yoe + 1) - yearStartD yoe ∧
      monthStartD mp ≤ doy ∧ doy < monthStartD (mp + 1) ∧
      civilFromDays z = (era * 400 + yoe + (if mp < 10 then 0 else 1),
        (if mp < 10 then mp + 3 else mp - 9), doy - monthStartD mp + 1) := by
  have hdoe : z % 146097 < 146097 := Nat.mod_lt _ (by omega)
  obtain ⟨yoe, hyoe400, hys1, hys2⟩ :=
    doe_cover 400 (z % 146097) (by rw [yearStartD_400]; exact hdoe)
  have hdoy365 : z % 146097 - yearStartD yoe ≤ 365 := by
    have := ysd_bounds yoe
    omega
  obtain ⟨hmp11, hms1, hms2⟩ := doy_split (z % 146097 - yearStartD yoe) (by omega)
  refine ⟨z / 146097, yoe, z % 146097 - yearStartD yoe,
    (5 * (z % 146097 - yearStartD yoe) + 2) / 153, by omega, hmp11, by omega, by omega,
    hms1, hms2, ?_⟩
  have hrw : yoeNum (z % 146097) / 365 = yoe := by
    have : z % 146097 = yearStartD yoe + (z % 146097 - yearStartD yoe) := by omega
    rw [this]
    exact yoe_recover yoe _ (by omega) (by omega)
  simp only [civilFromDays, hrw]
  have hite : (if (if (5 * (z % 146097 - yearStartD yoe) + 2) / 153 < 10
      then (5 * (z % 146097 - yearStartD yoe) + 2) / 153 + 3
      else (5 * (z % 146097 - yearStartD yoe) + 2) / 153 - 9) ≤ 2 then 1 else 0) =
      (if (5 * (z % 146097 - yearStartD yoe) + 2) / 153 < 10 then 0 else 1) := by
    by_cases h : (5 * (z % 146097 - yearStartD yoe) + 2) / 153 < 10
    · rw [if_pos h, if_pos h, if_neg (by omega)]
    · rw [if_neg h, if_neg h, if_pos (by omega)]
  rw [hite]

/-- `daysFromCivil` rebuilds the day number from the date `civilFromDays`
returned. -/
theorem days_civil_days (z y m d : Nat) (h : civilFromDays z = (y, m, d)) :
    daysFromCivil y m d = z := by
  obtain ⟨era, yoe, doy, mp, hyoe, hmp, hz, hlen, hm1, hm2, hc⟩ := civil_decomp z
  rw [h] at hc
  have hcy : era * 400 + yoe + (if mp < 10 then 0 else 1) = y := by
    have := congrArg Prod.fst hc; simpa using this.symm
  have hcm : (if mp < 10 then mp + 3 else mp - 9) = m := by
    have := congrArg (fun p => p.2.1) hc; simpa using this.symm
  have hcd : doy - monthStartD mp + 1 = d := by
    have := congrArg (fun p => p.2.2) hc; simpa using this.symm
  simp only [daysFromCivil]
  by_cases h10 : mp < 10
  · rw [if_pos h10] at hcy hcm
    have hm3 : m = mp + 3 := hcm.symm
    have hy : y = era * 400 + yoe := by omega
    have hite : (if m ≤ 2 then 1 else 0) = 0 := if_neg (by omega)
    rw [hite, hy, hm3]
    have e2 : (era * 400 + yoe - 0) / 400 = era := by omega
    have e3 : (era * 400 + yoe - 0) % 400 = yoe := by omega
    have e4 : (mp + 3 + 9) % 12 = mp := by omega
    rw [e2, e3, e4]
    omega
  · rw [if_neg h10] at hcy hcm
    have hm3 : m = mp - 9 := hcm.symm
    have hy : y = era * 400 + yoe + 1 := by omega
    have hite : (if m ≤ 2 then 1 else 0) = 1 := if_pos (by omega)
    rw [hite, hy, hm3]
    have e2 : (era * 400 + yoe + 1 - 1) / 400 = era := by omega
    have e3 : (era * 400 + yoe + 1 - 1) % 400 = yoe := by omega
    have e4 : (mp - 9 + 9) % 12 = mp := by omega
    rw [e2, e3, e4]
    omega

/-- The date `civilFromDays` returns is a valid calendar date, and its year
relates to the day-number range of `datetime` in both directions. -/
theorem civil_valid (z y m d : Nat) (h : civilFromDays z = (y, m, d)) :
    1 ≤ m ∧ m ≤ 12 ∧ 1 ≤ d ∧ d ≤ daysInMonth y m ∧
      (306 ≤ z → 1 ≤ y) ∧ (z ≤ 3652364 → y ≤ 9999) ∧
      (1 ≤ y → 306 ≤ z) ∧ (y ≤ 9999 → z ≤ 3652364) := by
  obtain ⟨era, yoe, doy, mp, hyoe, hmp, hz, hlen, hm1, hm2, hc⟩ := civil_decomp z
  rw [h] at hc
  have hcy : era * 400 + yoe + (if mp < 10 then 0 else 1) = y := by
    have := congrArg Prod.fst hc; simpa using this.symm
  have hcm : (if mp < 10 then mp + 3 else mp - 9) = m := by
    have := congrArg (fun p => p.2.1) hc; simpa using this.symm
  have hcd : doy - monthStartD mp + 1 = d := by
    have := congrArg (fun p => p.2.2) hc; simpa using this.symm
  have hbnd := ysd_bounds yoe
  have hite01 : (if mp < 10 then (0 : Nat) else 1) ≤ 1 := by split <;> omega
  have hmle : 1 ≤ m ∧ m ≤ 12 := by
    by_cases h10 : mp < 10
    · rw [if_pos h10] at hcm; omega
    · rw [if_neg h10] at hcm; omega
  have hrest : yearStartD yoe + doy < 146097 := by
    have g1 : yearStartD (yoe + 1) ≤ yearStartD 400 := yearStartD_mono (by omega)
    have g2 : yearStartD 400 = 146097 := yearStartD_400
    omega
  have blo : 306 ≤ z → 1 ≤ y := by
    intro hzlo
    by_contra hy0
    have hy : y = 0 := by omega
    have hera : era = 0 := by by_contra g; omega
    have hyoe0 : yoe = 0 := by omega
    have h10 : mp < 10 := by
      by_contra g; rw [if_neg g] at hcy; omega
    have e1 : yearStartD yoe = 0 := by rw [hyoe0]; decide
    have e2 : monthStartD (mp + 1) ≤ monthStartD 10 := monthStartD_mono (by omega)
    have e3 : monthStartD 10 = 306 := by decide
    omega
  have bhi : z ≤ 3652364 → y ≤ 9999 := by
    intro hzhi
    by_contra hy
    have hy4 : 10000 ≤ y := by omega
    have hera24 : era = 24 := by
      by_cases g : era ≤ 24
      · omega
      · exfalso
        have : 25 * 146097 ≤ era * 146097 := Nat.mul_le_mul_right _ (by omega)
        omega
    have hyoe399 : yoe = 399 := by omega
    have hiteq : (if mp < 10 then (0 : Nat) else 1) = 1 := by omega
    have h10 : ¬ mp < 10 := by
      intro g; rw [if_pos g] at hiteq; omega
    have e1 : monthStartD 10 ≤ monthStartD mp := monthStartD_mono (by omega)
    have e2 : monthStartD 10 = 306 := by decide
    have e3 : yearStartD yoe = 145731 := by rw [hyoe399]; decide
    omega
  have clo : 1 ≤ y → 306 ≤ z := by
    intro hy1
    by_cases hera : 1 ≤ era
    · have : 1 * 146097 ≤ era * 146097 := Nat.mul_le_mul_right _ hera
      omega
    · have hera0 : era = 0 := by omega
      by_cases hyoe1 : 1 ≤ yoe
      · have e1 : yearStartD 1 ≤ yearStartD yoe := yearStartD_mono hyoe1
        have e2 : yearStartD 1 = 365 := by decide
        omega
      · have hyoe0 : yoe = 0 := by omega
        have hiteq : (if mp < 10 then (0 : Nat) else 1) = 1 := by omega
        have h10 : ¬ mp < 10 := by intro g; rw [if_pos g] at hiteq; omega
        have e1 : monthStartD 10 ≤ monthStartD mp := monthStartD_mono (by omega)
        have e2 : monthStartD 10 = 306 := by decide
        omega
  have chi : y ≤ 9999 → z ≤ 3652364 := by
    intro hy9
    by_contra hzg
    have hera24 : era = 24 := by
      by_cases g : era ≤ 24
      · by_cases g2 : era ≤ 23
        · exfalso
          have : era * 146097 ≤ 23 * 146097 := Nat.mul_le_mul_right _ g2
          omega
        · omega
      · exfalso
        have hy4 : 400 * 25 ≤ 400 * era := Nat.mul_le_mul_left _ (by omega)
        omega
    have hyoe399 : yoe = 399 := by
      by_contra g
      have e1 : yearStartD yoe ≤ yearStartD 398 := yearStartD_mono (by omega)
      have e2 : yearStartD 398 = 145366 := by decide
      omega
    have e3 : yearStartD yoe = 145731 := by rw [hyoe399]; decide
    have hdoy306 : 306 ≤ doy := by omega
    have h10 : ¬ mp < 10 := by
      intro g
      have e4 : monthStartD (mp + 1) ≤ monthStartD 10 := monthStartD_mono (by omega)
      have e5 : monthStartD 10 = 306 := by decide
      omega
    rw [if_neg h10] at hcy
    omega
  refine ⟨hmle.1, hmle.2, by omega, ?_, blo, bhi, clo, chi⟩
  by_cases h11 : mp ≤ 10
  · have hpat := dim_pattern mp h11 y
    rw [hcm] at hpat
    omega
  · have hmp11 : mp = 11 := by omega
    have hm2' : m = 2 := by
      rw [if_neg (by omega)] at hcm
      omega
    rw [hmp11] at hm1 hm2 hcd
    have hms11 : monthStartD 11 = 337 := by decide
    have hms12 : monthStartD 12 = 367 := by decide
    have hfeb : daysInMonth y m = if leapYear y = true then 29 else 28 := by
      rw [hm2']
      simp [daysInMonth]
    by_cases hl : leapYear y = true
    · rw [hfeb, if_pos hl]
      omega
    · rw [hfeb, if_neg hl]
      have hcond : ¬((yoe + 1) % 4 = 0 ∧ ((yoe + 1) % 100 ≠ 0 ∨ (yoe + 1) % 400 = 0)) := by
        intro hcond
        apply hl
        have hyeq : era * 400 + yoe + 1 = y := by
          rw [if_neg (by omega)] at hcy
          omega
        rw [← hyeq]
        exact (leap_link era yoe).mpr hcond
      have := ysd_notleap yoe hcond
      omega

/-- The (era, year-of-era, day-of-year, shifted-month) decomposition of a day
number is unique. -/
theorem decomp_unique (era1 yoe1 doy1 mp1 era2 yoe2 doy2 mp2 : Nat)
    (h1 : yoe1 ≤ 399) (h3 : doy1 < yearStartD (yoe1 + 1) - yearStartD yoe1)
    (h4 : monthStartD mp1 ≤ doy1) (h5 : doy1 < monthStartD (mp1 + 1))
    (k1 : yoe2 ≤ 399) (k3 : doy2 < yearStartD (yoe2 + 1) - yearStartD yoe2)
    (k4 : monthStartD mp2 ≤ doy2) (k5 : doy2 < monthStartD (mp2 + 1))
    (heq : era1 * 146097 + (yearStartD yoe1 + doy1) =
      era2 * 146097 + (yearStartD yoe2 + doy2)) :
    era1 = era2 ∧ yoe1 = yoe2 ∧ doy1 = doy2 ∧ mp1 = mp2 := by
  have r1 : yearStartD yoe1 + doy1 < 146097 := by
    have g1 : yearStartD (yoe1 + 1) ≤ yearStartD 400 := yearStartD_mono (by omega)
    have g2 : yearStartD 400 = 146097 := yearStartD_400
    omega
  have r2 : yearStartD yoe2 + doy2 < 146097 := by
    have g1 : yearStartD (yoe2 + 1) ≤ yearStartD 400 := yearStartD_mono (by omega)
    have g2 : yearStartD 400 = 146097 := yearStartD_400
    omega
  have hera : era1 = era2 := by
    rcases Nat.lt_trichotomy era1 era2 with hl | he | hl
    · exfalso
      have : (era1 + 1) * 146097 ≤ era2 * 146097 := Nat.mul_le_mul_right _ (by omega)
      omega
    · exact he
    · exfalso
      have : (era2 + 1) * 146097 ≤ era1 * 146097 := Nat.mul_le_mul_right _ (by omega)
      omega
  subst hera
  have hdoe : yearStartD yoe1 + doy1 = yearStartD yoe2 + doy2 := by omega
  have hyoe : yoe1 = yoe2 :=
    year_unique (x := yearStartD yoe1 + doy1) (by omega) (by omega)
      (by omega) (by omega)
  subst hyoe
  have hdoy : doy1 = doy2 := by omega
  subst hdoy
  have hmp : mp1 = mp2 := month_unique h4 h5 k4 k5
  exact ⟨rfl, rfl, rfl, hmp⟩

/-- The calendar month fits inside its nominal slot of the 153-day pattern. -/
theorem dim_fits (y m : Nat) (h1 : 1 ≤ m) (h2 : m ≤ 12) :
    daysInMonth y m ≤ monthStartD ((m + 9) % 12 + 1) - monthStartD ((m + 9) % 12) := by
  interval_cases m <;> simp [daysInMonth, monthStartD] <;> split <;> omega

/-- Month lengths lie between 28 and 31. -/
theorem dim_le31 (y m : Nat) : 28 ≤ daysInMonth y m ∧ daysInMonth y m ≤ 31 := by
  simp only [daysInMonth]
  by_cases h2 : m = 2
  · rw [if_pos h2]
    split <;> omega
  · rw [if_neg h2]
    split <;> omega

/-- Outside the leap day, the day-of-shifted-year is at most 364. -/
theorem doy_le_364 (y m d : Nat) (h1 : 1 ≤ m) (h2 : m ≤ 12) (h3 : 1 ≤ d)
    (h4 : d ≤ daysInMonth y m) (h5 : ¬(m = 2 ∧ d = 29)) :
    monthStartD ((m + 9) % 12) + (d - 1) ≤ 364 := by
  by_cases hm2 : m = 2
  · have h29 : daysInMonth y 2 ≤ 29 := by
      simp only [daysInMonth]
      norm_num
      split <;> omega
    have hms : monthStartD ((2 + 9) % 12) = 337 := by decide
    subst hm2
    omega
  · have h31 := dim_le31 y m
    have hmp10 : (m + 9) % 12 ≤ 10 := by omega
    have hms : monthStartD ((m + 9) % 12) ≤ monthStartD 10 := monthStartD_mono hmp10
    have hms10 : monthStartD 10 = 306 := by decide
    omega

/-- `daysFromCivil` of a valid date realises the era decomposition, with the
bounds the uniqueness lemma needs. -/
theorem days_decomp (y m d : Nat) (hy : 1 ≤ y) (hmlo : 1 ≤ m) (hmhi : m ≤ 12)
    (hdlo : 1 ≤ d) (hdhi : d ≤ daysInMonth y m) :
    ∃ era yoe mp, yoe ≤ 399 ∧ mp ≤ 11 ∧
      daysFromCivil y m d = era * 146097 + (yearStartD yoe + (monthStartD mp + (d - 1))) ∧
      monthStartD mp + (d - 1) < yearStartD (yoe + 1) - yearStartD yoe ∧
      monthStartD mp ≤ monthStartD mp + (d - 1) ∧
      monthStartD mp + (d - 1) < monthStartD (mp + 1) ∧
      era * 400 + yoe + (if mp < 10 then 0 else 1) = y ∧
      (if mp < 10 then mp + 3 else mp - 9) = m := by
  have hfit := dim_fits y m hmlo hmhi
  have hmback : (if (m + 9) % 12 < 10 then (m + 9) % 12 + 3 else (m + 9) % 12 - 9) = m := by
    by_cases hm2 : m ≤ 2
    · rw [if_neg (by omega)]
      omega
    · rw [if_pos (by omega)]
      omega
  refine ⟨(y - (if m ≤ 2 then 1 else 0)) / 400, (y - (if m ≤ 2 then 1 else 0)) % 400,
    (m + 9) % 12, Nat.le_of_lt_succ (by exact Nat.mod_lt _ (by omega)), by omega,
    rfl, ?_, by omega, by omega, ?_, hmback⟩
  · -- day-of-year below the year length
    have hb := ysd_bounds ((y - (if m ≤ 2 then 1 else 0)) % 400)
    by_cases h29 : m = 2 ∧ d = 29
    · -- leap day: the year must be leap, so it is 366 days long
      obtain ⟨hm2, hd29⟩ := h29
      have hlp : leapYear y = true := by
        by_contra hnl
        have : daysInMonth y 2 = 28 := by simp [daysInMonth, hnl]
        rw [hm2] at hdhi
        omega
      have hiteq : (if m ≤ 2 then (1 : Nat) else 0) = 1 := if_pos (by omega)
      rw [hiteq] at *
      have hyrw : (y - 1) / 400 * 400 + (y - 1) % 400 + 1 = y := by omega
      have hcond := (leap_link ((y - 1) / 400) ((y - 1) % 400)).mp (by rw [hyrw]; exact hlp)
      have h366 := ysd_leap ((y - 1) % 400) hcond
      have hmp11 : (m + 9) % 12 = 11 := by omega
      rw [hmp11]
      have : monthStartD 11 = 337 := by decide
      omega
    · have h364 := doy_le_364 y m d hmlo hmhi hdlo hdhi h29
      omega
  · -- year reconstruction
    by_cases hm2 : m ≤ 2
    · have hiteq : (if m ≤ 2 then (1 : Nat) else 0) = 1 := if_pos hm2
      rw [hiteq]
      have h10 : ¬((m + 9) % 12 < 10) := by omega
      rw [if_neg h10]
      omega
    · have hiteq : (if m ≤ 2 then (1 : Nat) else 0) = 0 := if_neg hm2
      rw [hiteq]
      have h10 : (m + 9) % 12 < 10 := by omega
      rw [if_pos h10]
      omega

/-- `civilFromDays` inverts `daysFromCivil` on valid dates. -/
theorem civil_days_civil (y m d : Nat) (hv : validYmd y m d) :
    civilFromDays (daysFromCivil y m d) = (y, m, d) := by
  obtain ⟨hy, hmlo, hmhi, hdlo, hdhi⟩ := hv
  obtain ⟨era, yoe, doy, mp, hyoe, hmp, hz, hlen, hq1, hq2, hc⟩ :=
    civil_decomp (daysFromCivil y m d)
  obtain ⟨era2, yoe2, mp2, k1, k2, keq, k3, k4, k5, kyback, kmback⟩ :=
    days_decomp y m d hy hmlo hmhi hdlo hdhi
  obtain ⟨heq1, heq2, heq3, heq4⟩ :=
    decomp_unique era yoe doy mp era2 yoe2 (monthStartD mp2 + (d - 1)) mp2
      hyoe hlen hq1 hq2 k1 k3 k4 k5 (by rw [← hz, keq])
  subst heq1; subst heq2; subst heq4
  rw [hc, heq3, kyback, kmback]
  have : monthStartD mp + (d - 1) - monthStartD mp + 1 = d := by omega
  rw [this]

/-- Every valid date of years 1-9999 has its day number in `datetime`'s
representable range. -/
theorem daysFromCivil_range (y m d : Nat) (hv : validYmd y m d) (hy9 : y ≤ 9999) :
    306 ≤ daysFromCivil y m d ∧ daysFromCivil y m d ≤ 3652364 := by
  have hb := civil_days_civil y m d hv
  have hval := civil_valid (daysFromCivil y m d) y m d hb
  exact ⟨hval.2.2.2.2.2.2.1 hv.1, hval.2.2.2.2.2.2.2 hy9⟩

/-- ASCII digit character of a value below 10. -/
def digitChar (n : Nat) : Char := Char.ofNat (48 + n)

/-- Numeric value of an ASCII digit character. -/
def charVal (c : Char) : Nat := c.toNat - 48

/-- `datetime.strptime(s, "%Y%m%d")` on an 8-character string: four digits of
year, two of month, two of day, with calendar validation; `None` models the
`ValueError` the caller catches. -/
def strptimeYmd (s : String) : Option (Nat × Nat × Nat) :=
  match s.data with
  | [c1, c2, c3, c4, c5, c6, c7, c8] =>
    if c1.isDigit && c2.isDigit && c3.isDigit && c4.isDigit &&
        c5.isDigit && c6.isDigit && c7.isDigit && c8.isDigit then
      let y := ((charVal c1 * 10 + charVal c2) * 10 + charVal c3) * 10 + charVal c4
      let m := charVal c5 * 10 + charVal c6
      let d := charVal c7 * 10 + charVal c8
      if 1 ≤ y ∧ 1 ≤ m ∧ m ≤ 12 ∧ 1 ≤ d ∧ d ≤ daysInMonth y m then some (y, m, d)
      else none
    else none
  | _ => none

/-- Two-digit zero-padded field, as `%m` / `%d` render values below 100. -/
def pad2 (n : Nat) : List Char := [digitChar (n / 10 % 10), digitChar (n % 10)]

/-- `%Y` as glibc renders years up to 9999: decimal digits, no zero padding. -/
def yearChars (y : Nat) : List Char :=
  if 1000 ≤ y then
    [digitChar (y / 1000 % 10), digitChar (y / 100 % 10), digitChar (y / 10 % 10),
      digitChar (y % 10)]
  else if 100 ≤ y then [digitChar (y / 100), digitChar (y / 10 % 10), digitChar (y % 10)]
  else if 10 ≤ y then [digitChar (y / 10), digitChar (y % 10)]
  else [digitChar y]

/-- `date.strftime("%Y%m%d")` for years up to 9999. -/
def strftimeYmd (y m d : Nat) : String := ⟨yearChars y ++ pad2 m ++ pad2 d⟩

theorem digit_bounds (c : Char) (h : c.isDigit = true) : 48 ≤ c.toNat ∧ c.toNat ≤ 57 := by
  simp only [Char.isDigit, decide_eq_true_eq, Bool.and_eq_true] at h
  obtain ⟨h1, h2⟩ := h
  exact ⟨UInt32.le_def.mp h1, UInt32.le_def.mp h2⟩

theorem digitChar_spec (n : Nat) (h : n ≤ 9) :
    charVal (digitChar n) = n ∧ (digitChar n).isDigit = true := by
  interval_cases n <;> exact ⟨rfl, rfl⟩

theorem digitChar_charVal (c : Char) (h : c.isDigit = true) : digitChar (charVal c) = c := by
  obtain ⟨h1, h2⟩ := digit_bounds c h
  unfold digitChar charVal
  have e : 48 + (c.toNat - 48) = c.toNat := by omega
  rw [e]
  exact Char.ofNat_toNat c

/-- Formatting a valid four-digit-year date and parsing it back returns the
same date. -/
theorem strptime_strftime (y m d : Nat) (hv : validYmd y m d) (hy1000 : 1000 ≤ y)
    (hy : y ≤ 9999) : strptimeYmd (strftimeYmd y m d) = some (y, m, d) := by
  obtain ⟨hy1, hmlo, hmhi, hdlo, hdhi⟩ := hv
  have hd31 := dim_le31 y m
  have q1 := digitChar_spec (y / 1000 % 10) (by omega)
  have q2 := digitChar_spec (y / 100 % 10) (by omega)
  have q3 := digitChar_spec (y / 10 % 10) (by omega)
  have q4 := digitChar_spec (y % 10) (by omega)
  have q5 := digitChar_spec (m / 10 % 10) (by omega)
  have q6 := digitChar_spec (m % 10) (by omega)
  have q7 := digitChar_spec (d / 10 % 10) (by omega)
  have q8 := digitChar_spec (d % 10) (by omega)
  have hdata : (strftimeYmd y m d).data =
      [digitChar (y / 1000 % 10), digitChar (y / 100 % 10), digitChar (y / 10 % 10),
        digitChar (y % 10), digitChar (m / 10 % 10), digitChar (m % 10),
        digitChar (d / 10 % 10), digitChar (d % 10)] := by
    simp only [strftimeYmd, yearChars, pad2, if_pos hy1000]
    rfl
  simp only [strptimeYmd, hdata, q1.1, q1.2, q2.1, q2.2, q3.1, q3.2, q4.1, q4.2,
    q5.1, q5.2, q6.1, q6.2, q7.1, q7.2, q8.1, q8.2, Bool.and_self, if_true]
  have ey : ((y / 1000 % 10 * 10 + y / 100 % 10) * 10 + y / 10 % 10) * 10 + y % 10 = y := by
    omega
  have em : m / 10 % 10 * 10 + m % 10 = m := by omega
  have ed : d / 10 % 10 * 10 + d % 10 = d := by omega
  rw [ey, em, ed]
  rw [if_pos ⟨hy1, hmlo, hmhi, hdlo, hdhi⟩]

/-- Parsing an 8-character date string with a four-digit year and formatting
the result returns the same string. -/
theorem strftime_strptime (s : String) (y m d : Nat)
    (h : strptimeYmd s = some (y, m, d)) (hy1000 : 1000 ≤ y) : strftimeYmd y m d = s := by
  unfold strptimeYmd at h
  split at h
  case h_2 => exact absurd h (by simp)
  case h_1 c1 c2 c3 c4 c5 c6 c7 c8 hdata =>
    split at h
    case isFalse => exact absurd h (by simp)
    case isTrue hdig =>
      dsimp only at h
      split at h
      case isFalse => exact absurd h (by simp)
      case isTrue hvalid =>
        simp only [Option.some.injEq, Prod.mk.injEq] at h
        obtain ⟨hyv, hmv, hdv⟩ := h
        simp only [Bool.and_eq_true] at hdig
        obtain ⟨⟨⟨⟨⟨⟨⟨g1, g2⟩, g3⟩, g4⟩, g5⟩, g6⟩, g7⟩, g8⟩ := hdig
        have b1 := digit_bounds c1 g1
        have b2 := digit_bounds c2 g2
        have b3 := digit_bounds c3 g3
        have b4 := digit_bounds c4 g4
        have b5 := digit_bounds c5 g5
        have b6 := digit_bounds c6 g6
        have b7 := digit_bounds c7 g7
        have b8 := digit_bounds c8 g8
        have e1 : y / 1000 % 10 = charVal c1 := by unfold charVal at *; omega
        have e2 : y / 100 % 10 = charVal c2 := by unfold charVal at *; omega
        have e3 : y / 10 % 10 = charVal c3 := by unfold charVal at *; omega
        have e4 : y % 10 = charVal c4 := by unfold charVal at *; omega
        have e5 : m / 10 % 10 = charVal c5 := by unfold charVal at *; omega
        have e6 : m % 10 = charVal c6 := by unfold charVal at *; omega
        have e7 : d / 10 % 10 = charVal c7 := by unfold charVal at *; omega
        have e8 : d % 10 = charVal c8 := by unfold charVal at *; omega
        have hdchars : strftimeYmd y m d = ⟨[c1, c2, c3, c4, c5, c6, c7, c8]⟩ := by
          simp only [strftimeYmd, yearChars, pad2, if_pos hy1000,
            e1, e2, e3, e4, e5, e6, e7, e8,
            digitChar_charVal c1 g1, digitChar_charVal c2 g2, digitChar_charVal c3 g3,
            digitChar_charVal c4 g4, digitChar_charVal c5 g5, digitChar_charVal c6 g6,
            digitChar_charVal c7 g7, digitChar_charVal c8 g8]
          rfl
        rw [hdchars, ← hdata]

/-- A successful parse yields a valid date with a four-digit-bounded year,
and the input had exactly 8 characters. -/
theorem strptime_valid (s : String) (y m d : Nat)
    (h : strptimeYmd s = some (y, m, d)) :
    validYmd y m d ∧ y ≤ 9999 ∧ s.length = 8 := by
  unfold strptimeYmd at h
  split at h
  case h_2 => exact absurd h (by simp)
  case h_1 c1 c2 c3 c4 c5 c6 c7 c8 hdata =>
    split at h
    case isFalse => exact absurd h (by simp)
    case isTrue hdig =>
      dsimp only at h
      split at h
      case isFalse => exact absurd h (by simp)
      case isTrue hvalid =>
        simp only [Option.some.injEq, Prod.mk.injEq] at h
        obtain ⟨hyv, hmv, hdv⟩ := h
        simp only [Bool.and_eq_true] at hdig
        obtain ⟨⟨⟨⟨⟨⟨⟨g1, g2⟩, g3⟩, g4⟩, g5⟩, g6⟩, g7⟩, g8⟩ := hdig
        have b1 := digit_bounds c1 g1
        have b2 := digit_bounds c2 g2
        have b3 := digit_bounds c3 g3
        have b4 := digit_bounds c4 g4
        refine ⟨?_, ?_, ?_⟩
        · rw [← hyv, ← hmv, ← hdv]
          exact hvalid
        · unfold charVal at *
          omega
        · show s.data.length = 8
          rw [hdata]
          rfl

theorem strftime_length (y m d : Nat) :
    (strftimeYmd y m d).length = (yearChars y).length + 4 := by
  show (yearChars y ++ pad2 m ++ pad2 d).length = (yearChars y).length + 4
  simp [pad2]

theorem yearChars_length (y : Nat) :
    (yearChars y).length = 4 ↔ 1000 ≤ y := by
  unfold yearChars
  by_cases h1 : 1000 ≤ y
  · rw [if_pos h1]
    simpa using h1
  · rw [if_neg h1]
    by_cases h2 : 100 ≤ y
    · rw [if_pos h2]; simp; omega
    · rw [if_neg h2]
      by_cases h3 : 10 ≤ y
      · rw [if_pos h3]; simp; omega
      · rw [if_neg h3]; simp; omega

/-- `DICOMDeidentifier._shift_date`: parse the 8-digit date, add the offset,
reformat. A short or unparseable string yields `None` (Python catches the
`ValueError`); a shifted date outside `datetime`'s range raises
`OverflowError`, which the Python code does not catch (`Except.error`). -/
def shift_date (date_str : String) (days : Int) : Except Unit (Option String) :=
  if date_str.length ≠ 8 then .ok none
  else
    match strptimeYmd date_str with
    | none => .ok none
    | some (y, m, d) =>
      let z : Int := (daysFromCivil y m d : Int) + days
      if z < 306 ∨ 3652364 < z then .error ()
      else
        .ok (some (strftimeYmd (civilFromDays z.toNat).1 (civilFromDays z.toNat).2.1
          (civilFromDays z.toNat).2.2))

/-- Shifting a four-digit-year date by `+days` and the (8-character) result
by `-days` returns the original string. -/
theorem shift_roundtrip (s s₁ : String) (y m d : Nat) (dd : Int)
    (hp : strptimeYmd s = some (y, m, d)) (hy : 1000 ≤ y)
    (h1 : shift_date s dd = .ok (some s₁)) (hl : s₁.length = 8) :
    shift_date s₁ (-dd) = .ok (some s) := by
  obtain ⟨hv, hy9999, hlen8⟩ := strptime_valid s y m d hp
  unfold shift_date at h1
  rw [if_neg (by omega), hp] at h1
  dsimp only at h1
  split at h1
  case isTrue => exact absurd h1 (by simp)
  case isFalse hrange =>
    simp only [Except.ok.injEq, Option.some.injEq] at h1
    have hznn : (0 : Int) ≤ (daysFromCivil y m d : Int) + dd := by omega
    rcases hc : civilFromDays ((daysFromCivil y m d : Int) + dd).toNat with ⟨y1, rest⟩
    rcases hrest : rest with ⟨m1, d1⟩
    rw [hrest] at hc
    have hc1 : (civilFromDays ((daysFromCivil y m d : Int) + dd).toNat).1 = y1 := by
      rw [hc]
    have hc2 : (civilFromDays ((daysFromCivil y m d : Int) + dd).toNat).2.1 = m1 := by
      rw [hc]
    have hc3 : (civilFromDays ((daysFromCivil y m d : Int) + dd).toNat).2.2 = d1 := by
      rw [hc]
    rw [hc1, hc2, hc3] at h1
    have hval := civil_valid _ y1 m1 d1 hc
    have hy1lo : 1 ≤ y1 := hval.2.2.2.2.1 (by omega)
    have hy1hi : y1 ≤ 9999 := hval.2.2.2.2.2.1 (by omega)
    have hy1000 : 1000 ≤ y1 := by
      rw [← h1] at hl
      rw [strftime_length] at hl
      exact (yearChars_length y1).mp (by omega)
    have hv1 : validYmd y1 m1 d1 :=
      ⟨hy1lo, hval.1, hval.2.1, hval.2.2.1, hval.2.2.2.1⟩
    have hdays1 : daysFromCivil y1 m1 d1 = ((daysFromCivil y m d : Int) + dd).toNat :=
      days_civil_days _ y1 m1 d1 hc
    unfold shift_date
    rw [if_neg (by omega), ← h1, strptime_strftime y1 m1 d1 hv1 hy1000 hy1hi]
    dsimp only
    have hz2 : (daysFromCivil y1 m1 d1 : Int) + -dd = (daysFromCivil y m d : Int) := by
      rw [hdays1]
      omega
    rw [hz2]
    have hrng := daysFromCivil_range y m d hv hy9999
    rw [if_neg (by omega)]
    have htn : ((daysFromCivil y m d : Int)).toNat = daysFromCivil y m d := by omega
    rw [htn]
    have hback := civil_days_civil y m d hv
    have hb1 : (civilFromDays (daysFromCivil y m d)).1 = y := by rw [hback]
    have hb2 : (civilFromDays (daysFromCivil y m d)).2.1 = m := by rw [hback]
    have hb3 : (civilFromDays (daysFromCivil y m d)).2.2 = d := by rw [hback]
    rw [hb1, hb2, hb3, strftime_strptime s y m d hp hy]

/-- Association-list lookup by tag keyword, modelling `tag in dataset` /
`dataset.get(tag)` on standard elements. -/
def lookupTag {α : Type} : List (String × α) → String → Option α
  | [], _ => none
  | (k, v) :: rest, t => if k = t then some v else lookupTag rest t

/-- `setattr(dataset, tag, value)`: replace the element in place, or append
a new one. -/
def setTag {α : Type} : List (String × α) → String → α → List (String × α)
  | [], t, v => [(t, v)]
  | (k, w) :: rest, t, v => if k = t then (k, v) :: rest else (k, w) :: setTag rest t v

/-- `delattr(dataset, tag)`: drop the element. -/
def eraseTag {α : Type} : List (String × α) → String → List (String × α)
  | [], _ => []
  | (k, w) :: rest, t => if k = t then eraseTag rest t else (k, w) :: eraseTag rest t

theorem lookupTag_set_self {α : Type} (es : List (String × α)) (t : String) (v : α) :
    lookupTag (setTag es t v) t = some v := by
  induction es with
  | nil => simp [setTag, lookupTag]
  | cons kv rest ih =>
    obtain ⟨k, w⟩ := kv
    by_cases hk : k = t
    · simp [setTag, lookupTag, hk]
    · simp [setTag, lookupTag, hk, ih]

theorem lookupTag_set_other {α : Type} (es : List (String × α)) (t u : String) (v : α)
    (h : t ≠ u) : lookupTag (setTag es u v) t = lookupTag es t := by
  induction es with
  | nil => simp [setTag, lookupTag, Ne.symm h]
  | cons kv rest ih =>
    obtain ⟨k, w⟩ := kv
    by_cases hk : k = u
    · subst hk
      simp [setTag, lookupTag, Ne.symm h]
    · simp only [setTag, if_neg hk, lookupTag]
      by_cases hkt : k = t
      · simp [hkt]
      · simp [hkt, ih]

theorem lookupTag_erase_self {α : Type} (es : List (String × α)) (t : String) :
    lookupTag (eraseTag es t) t = none := by
  induction es with
  | nil => simp [eraseTag, lookupTag]
  | cons kv rest ih =>
    obtain ⟨k, w⟩ := kv
    by_cases hk : k = t
    · simp [eraseTag, hk, ih]
    · simp [eraseTag, lookupTag, hk, ih]

theorem lookupTag_erase_other {α : Type} (es : List (String × α)) (t u : String)
    (h : t ≠ u) : lookupTag (eraseTag es u) t = lookupTag es t := by
  induction es with
  | nil => simp [eraseTag]
  | cons kv rest ih =>
    obtain ⟨k, w⟩ := kv
    by_cases hk : k = u
    · subst hk
      simp [eraseTag, lookupTag, Ne.symm h, ih]
    · simp only [eraseTag, if_neg hk, lookupTag]
      by_cases hkt : k = t
      · simp [hkt]
      · simp [hkt, ih]

theorem lookupTag_erase_absent {α : Type} (es : List (String × α)) (t : String)
    (h : lookupTag es t = none) : eraseTag es t = es := by
  induction es with
  | nil => rfl
  | cons kv rest ih =>
    obtain ⟨k, w⟩ := kv
    simp only [lookupTag] at h
    by_cases hk : k = t
    · rw [if_pos hk] at h
      exact absurd h (by simp)
    · rw [if_neg hk] at h
      simp [eraseTag, hk, ih h]

/-- A DICOM dataset: standard elements as (keyword, string value) pairs, and
vendor/private elements kept separately (removed wholesale by
`remove_private_tags()`). -/
structure Dataset where
  elems : List (String × String)
  private_elems : List (String × String)
deriving DecidableEq

/-- Exceptions `deidentify_dataset` can propagate: `ValueError` from `int()`
on a malformed age, `OverflowError` from shifting a date outside
`datetime`'s range. -/
inductive DeidError where
  | valueError
  | overflowError
deriving DecidableEq

/-- The fields of the audit event `deidentify_dataset` logs. -/
structure AuditEvent where
  original_patient_id : String
  hashed_patient_id : String
  date_shift_days : Int
deriving DecidableEq

/-- State of a `DICOMDeidentifier` instance: `salt`, optional fixed
`date_shift_days`, and the per-patient shift registry
`_patient_date_shifts`. -/
structure DICOMDeidentifier where
  salt : String
  date_shift_days : Option Int
  patient_date_shifts : List (String × Int)
deriving DecidableEq

/-- DICOM tags removed completely (class constant `REMOVE_TAGS`). -/
def DICOMDeidentifier.REMOVE_TAGS : List String := [
  "PatientName", "PatientBirthDate", "PatientAddress", "PatientTelephoneNumbers",
  "PatientMotherBirthName", "MilitaryRank", "BranchOfService", "MedicalRecordLocator",
  "InstitutionName", "InstitutionAddress", "InstitutionalDepartmentName",
  "ReferringPhysicianName", "ReferringPhysicianAddress", "ReferringPhysicianTelephoneNumbers",
  "PerformingPhysicianName", "NameOfPhysiciansReadingStudy", "OperatorsName",
  "RequestingPhysician", "StudyIDIssuer", "IssuerOfPatientID", "DeviceSerialNumber",
  "PlateID", "ProtocolName", "StationName", "OtherPatientIDs", "OtherPatientNames",
  "RegionOfResidence", "CurrentPatientLocation", "PatientInstitutionResidence"]

/-- Tags replaced by a salted hash (class constant `HASH_TAGS`). -/
def DICOMDeidentifier.HASH_TAGS : List String := ["PatientID", "AccessionNumber"]

/-- Date tags shifted to preserve temporal relationships (class constant
`DATE_TAGS`). -/
def DICOMDeidentifier.DATE_TAGS : List String := [
  "StudyDate", "SeriesDate", "AcquisitionDate", "ContentDate", "InstanceCreationDate"]

/-- Time tags enumerated by the policy (class constant `TIME_TAGS`); the
transformation never reads them. -/
def DICOMDeidentifier.TIME_TAGS : List String := [
  "StudyTime", "SeriesTime", "AcquisitionTime", "ContentTime", "InstanceCreationTime"]

/-- `DICOMDeidentifier.__init__`: `salt or default` (Python `or`, so an empty
string also falls back to the default), the optional fixed shift, and an
empty registry. The constructor performs no further validation and cannot
raise. -/
def DICOMDeidentifier.init (salt : Option String) (date_shift_days : Option Int) :
    DICOMDeidentifier :=
  { salt := match salt with
      | none => "medical-imaging-pipeline-default-salt"
      | some s => if s = "" then "medical-imaging-pipeline-default-salt" else s
    date_shift_days := date_shift_days
    patient_date_shifts := [] }

/-- `DICOMDeidentifier._hash_value`: first 16 hex characters of
`sha256(value + salt)`. -/
def DICOMDeidentifier.hash_value (st : DICOMDeidentifier) (value : String) : String :=
  (sha256HexStr (value ++ st.salt)).take 16

/-- `DICOMDeidentifier._get_date_shift`: the fixed shift if configured;
otherwise the registry entry for the patient, created on first sight as
`int(md5(patient_id + salt).hexdigest(), 16) % 730 - 365`. Returns the shift
and the updated instance state. -/
def DICOMDeidentifier.get_date_shift (st : DICOMDeidentifier) (patient_id : String) :
    Int × DICOMDeidentifier :=
  match st.date_shift_days with
  | some dd => (dd, st)
  | none =>
    match lookupTag st.patient_date_shifts patient_id with
    | some v => (v, st)
    | none =>
      let shift : Int := (md5IntOfString (patient_id ++ st.salt) % 730 : Nat) - 365
      (shift, { st with
        patient_date_shifts := st.patient_date_shifts ++ [(patient_id, shift)] })

/-- The loop `for tag in self.REMOVE_TAGS: if tag in dataset: delattr(...)`. -/
def removeLoop : List String → List (String × String) → List (String × String)
  | [], es => es
  | t :: ts, es =>
    removeLoop ts (match lookupTag es t with
      | some _ => eraseTag es t
      | none => es)

/-- The loop `for tag in self.HASH_TAGS: if tag in dataset: setattr(...)`. -/
def hashLoop : DICOMDeidentifier → List String → List (String × String) →
    List (String × String)
  | _, [], es => es
  | st, t :: ts, es =>
    hashLoop st ts (match lookupTag es t with
      | some v => setTag es t (st.hash_value v)
      | none => es)

/-- The loop `for tag in self.DATE_TAGS: ...`: shift each date tag present;
`_shift_date` returning `None` leaves the tag unchanged, and its uncaught
`OverflowError` aborts the call. -/
def dateLoop (shift : Int) : List String → List (String × String) →
    Except DeidError (List (String × String))
  | [], es => .ok es
  | t :: ts, es =>
    match lookupTag es t with
    | none => dateLoop shift ts es
    | some v =>
      match shift_date v shift with
      | .error _ => .error .overflowError
      | .ok none => dateLoop shift ts es
      | .ok (some s) => dateLoop shift ts (setTag es t s)

/-- Python's `age_str.endswith("Y")`: the last character is `'Y'` (false on
the empty string). -/
def endsWithY (s : String) : Bool :=
  match s.data.getLast? with
  | some c => c = 'Y'
  | none => false

/-- The age-capping block: if `PatientAge` ends in `"Y"`, parse the numeric
prefix with `int()` (an unparseable prefix raises `ValueError`, which the
method does not catch) and rewrite values above 89 to `"090Y"`. -/
def ageStep (es : List (String × String)) : Except DeidError (List (String × String)) :=
  match lookupTag es "PatientAge" with
  | none => .ok es
  | some a =>
    if endsWithY a then
      match pyIntOfString (a.dropRight 1) with
      | none => .error .valueError
      | some n => if n > 89 then .ok (setTag es "PatientAge" "090Y") else .ok es
    else .ok es

/-- Lines 162-171 of the source: optionally remove pixel data, then stamp the
`PatientIdentityRemoved` and `DeidentificationMethod` markers. -/
def finalElems (remove_pixel_data : Bool) (es4 : List (String × String)) :
    List (String × String) :=
  let es5 := if remove_pixel_data then
      match lookupTag es4 "PixelData" with
      | some _ => eraseTag es4 "PixelData"
      | none => es4
    else es4
  let es6 := setTag es5 "PatientIdentityRemoved" "YES"
  setTag es6 "DeidentificationMethod"
    "HIPAA Safe Harbor with date shifting and ID hashing"

/-- `DICOMDeidentifier.deidentify_dataset`: capture the original patient id,
remove, hash, shift dates, cap the age, drop private elements and pixel data
as requested, stamp the de-identification markers, and log the audit event.
Returns the dataset, the audit event and the updated instance state. -/
def DICOMDeidentifier.deidentify_dataset (st : DICOMDeidentifier) (ds : Dataset)
    (remove_private_tags remove_pixel_data : Bool) :
    Except DeidError (Dataset × AuditEvent × DICOMDeidentifier) :=
  let original_patient_id := (lookupTag ds.elems "PatientID").getD "unknown"
  let es1 := removeLoop DICOMDeidentifier.REMOVE_TAGS ds.elems
  let es2 := hashLoop st DICOMDeidentifier.HASH_TAGS es1
  let p := st.get_date_shift original_patient_id
  match dateLoop p.1 DICOMDeidentifier.DATE_TAGS es2 with
  | .error e => .error e
  | .ok es3 =>
    match ageStep es3 with
    | .error e => .error e
    | .ok es4 =>
      let priv := if remove_private_tags then [] else ds.private_elems
      let es7 := finalElems remove_pixel_data es4
      .ok (⟨es7, priv⟩,
        ⟨original_patient_id, (lookupTag es7 "PatientID").getD "", p.1⟩,
        p.2)

theorem removeLoop_none (ts : List String) (es : List (String × String)) (t : String)
    (h : lookupTag es t = none) : lookupTag (removeLoop ts es) t = none := by
  induction ts generalizing es with
  | nil => exact h
  | cons u us ih =>
    simp only [removeLoop]
    cases hu : lookupTag es u with
    | none => exact ih es h
    | some v =>
      by_cases hut : t = u
      · subst hut
        exact ih _ (lookupTag_erase_self es t)
      · exact ih _ (by rw [lookupTag_erase_other es t u hut]; exact h)

theorem removeLoop_mem (ts : List String) (es : List (String × String)) (t : String)
    (h : t ∈ ts) : lookupTag (removeLoop ts es) t = none := by
  induction ts generalizing es with
  | nil => exact absurd h (List.not_mem_nil t)
  | cons u us ih =>
    simp only [removeLoop]
    rcases List.mem_cons.mp h with he | hm
    · subst he
      cases hu : lookupTag es t with
      | none => exact removeLoop_none us es t hu
      | some v => exact removeLoop_none us _ t (lookupTag_erase_self es t)
    · cases hu : lookupTag es u with
      | none => exact ih es hm
      | some v => exact ih (eraseTag es u) hm

theorem removeLoop_not_mem (ts : List String) (es : List (String × String)) (t : String)
    (h : ¬ t ∈ ts) : lookupTag (removeLoop ts es) t = lookupTag es t := by
  induction ts generalizing es with
  | nil => rfl
  | cons u us ih =>
    simp only [removeLoop]
    have hut : t ≠ u := by intro g; exact h (by rw [g]; exact List.mem_cons_self u us)
    have hus : ¬ t ∈ us := fun g => h (List.mem_cons_of_mem u g)
    cases hu : lookupTag es u with
    | none => exact ih es hus
    | some v => rw [ih _ hus, lookupTag_erase_other es t u hut]

theorem hashLoop_not_mem (st : DICOMDeidentifier) (ts : List String)
    (es : List (String × String)) (t : String) (h : ¬ t ∈ ts) :
    lookupTag (hashLoop st ts es) t = lookupTag es t := by
  induction ts generalizing es with
  | nil => rfl
  | cons u us ih =>
    simp only [hashLoop]
    have hut : t ≠ u := by intro g; exact h (by rw [g]; exact List.mem_cons_self u us)
    have hus : ¬ t ∈ us := fun g => h (List.mem_cons_of_mem u g)
    cases hu : lookupTag es u with
    | none => exact ih es hus
    | some v => rw [ih _ hus, lookupTag_set_other es t u _ hut]

theorem dateLoop_not_mem (shift : Int) (ts : List String) (es es2 : List (String × String))
    (t : String) (h : ¬ t ∈ ts) (hr : dateLoop shift ts es = .ok es2) :
    lookupTag es2 t = lookupTag es t := by
  induction ts generalizing es with
  | nil =>
    simp only [dateLoop, Except.ok.injEq] at hr
    rw [← hr]
  | cons u us ih =>
    simp only [dateLoop] at hr
    have hut : t ≠ u := by intro g; exact h (by rw [g]; exact List.mem_cons_self u us)
    have hus : ¬ t ∈ us := fun g => h (List.mem_cons_of_mem u g)
    split at hr
    · exact ih es hus hr
    · split at hr
      · exact absurd hr (by simp)
      · exact ih es hus hr
      · rw [ih _ hus hr, lookupTag_set_other es t u _ hut]

theorem dateLoop_no_valueError (shift : Int) (ts : List String)
    (es : List (String × String)) : dateLoop shift ts es ≠ .error .valueError := by
  induction ts generalizing es with
  | nil => simp [dateLoop]
  | cons u us ih =>
    simp only [dateLoop]
    intro hcon
    split at hcon
    · exact ih es hcon
    · split at hcon
      · simp only [Except.error.injEq] at hcon
        exact DeidError.noConfusion hcon
      · exact ih es hcon
      · exact ih _ hcon

theorem ageStep_other (es es2 : List (String × String)) (t : String)
    (h : t ≠ "PatientAge") (hr : ageStep es = .ok es2) :
    lookupTag es2 t = lookupTag es t := by
  unfold ageStep at hr
  split at hr
  · simp only [Except.ok.injEq] at hr
    rw [← hr]
  · split at hr
    · split at hr
      · exact absurd hr (by simp)
      · split at hr
        · simp only [Except.ok.injEq] at hr
          rw [← hr, lookupTag_set_other es t _ _ h]
        · simp only [Except.ok.injEq] at hr
          rw [← hr]
    · simp only [Except.ok.injEq] at hr
      rw [← hr]

/-- A `deidentify_dataset` run fails exactly when the date loop fails. -/
theorem deidentify_dl_err (st : DICOMDeidentifier) (ds : Dataset) (a b : Bool) (e : DeidError)
    (hdl : dateLoop (st.get_date_shift ((lookupTag ds.elems "PatientID").getD "unknown")).1
      DICOMDeidentifier.DATE_TAGS
      (hashLoop st DICOMDeidentifier.HASH_TAGS
        (removeLoop DICOMDeidentifier.REMOVE_TAGS ds.elems)) = .error e) :
    st.deidentify_dataset ds a b = .error e := by
  unfold DICOMDeidentifier.deidentify_dataset
  dsimp only
  rw [hdl]

/-- A `deidentify_dataset` run fails when the age step fails. -/
theorem deidentify_age_err (st : DICOMDeidentifier) (ds : Dataset) (a b : Bool) (e : DeidError)
    (es3 : List (String × String))
    (hdl : dateLoop (st.get_date_shift ((lookupTag ds.elems "PatientID").getD "unknown")).1
      DICOMDeidentifier.DATE_TAGS
      (hashLoop st DICOMDeidentifier.HASH_TAGS
        (removeLoop DICOMDeidentifier.REMOVE_TAGS ds.elems)) = .ok es3)
    (has : ageStep es3 = .error e) :
    st.deidentify_dataset ds a b = .error e := by
  unfold DICOMDeidentifier.deidentify_dataset
  dsimp only
  rw [hdl]
  dsimp only
  rw [has]

/-- Explicit form of a successful `deidentify_dataset` run given the results
of the date loop and the age step. -/
theorem deidentify_ok_eq (st : DICOMDeidentifier) (ds : Dataset) (a b : Bool)
    (es3 es4 : List (String × String))
    (hdl : dateLoop (st.get_date_shift ((lookupTag ds.elems "PatientID").getD "unknown")).1
      DICOMDeidentifier.DATE_TAGS
      (hashLoop st DICOMDeidentifier.HASH_TAGS
        (removeLoop DICOMDeidentifier.REMOVE_TAGS ds.elems)) = .ok es3)
    (has : ageStep es3 = .ok es4) :
    st.deidentify_dataset ds a b =
      .ok (⟨finalElems b es4, if a then [] else ds.private_elems⟩,
        ⟨(lookupTag ds.elems "PatientID").getD "unknown",
          (lookupTag (finalElems b es4) "PatientID").getD "",
          (st.get_date_shift ((lookupTag ds.elems "PatientID").getD "unknown")).1⟩,
        (st.get_date_shift ((lookupTag ds.elems "PatientID").getD "unknown")).2) := by
  unfold DICOMDeidentifier.deidentify_dataset
  dsimp only
  rw [hdl]
  dsimp only
  rw [has]

/-- Destructuring of a successful `deidentify_dataset` run into its stages. -/
theorem deidentify_ok (st : DICOMDeidentifier) (ds : Dataset) (a b : Bool)
    (ds2 : Dataset) (ev : AuditEvent) (st2 : DICOMDeidentifier)
    (hr : st.deidentify_dataset ds a b = .ok (ds2, ev, st2)) :
    ∃ es3 es4,
      dateLoop (st.get_date_shift ((lookupTag ds.elems "PatientID").getD "unknown")).1
        DICOMDeidentifier.DATE_TAGS
        (hashLoop st DICOMDeidentifier.HASH_TAGS
          (removeLoop DICOMDeidentifier.REMOVE_TAGS ds.elems)) = .ok es3 ∧
      ageStep es3 = .ok es4 ∧
      (ds2, ev, st2) =
        ((⟨finalElems b es4, if a then [] else ds.private_elems⟩ : Dataset),
          (⟨(lookupTag ds.elems "PatientID").getD "unknown",
            (lookupTag (finalElems b es4) "PatientID").getD "",
            (st.get_date_shift ((lookupTag ds.elems "PatientID").getD "unknown")).1⟩ : AuditEvent),
          (st.get_date_shift ((lookupTag ds.elems "PatientID").getD "unknown")).2) := by
  cases hdl : dateLoop (st.get_date_shift ((lookupTag ds.elems "PatientID").getD "unknown")).1
      DICOMDeidentifier.DATE_TAGS
      (hashLoop st DICOMDeidentifier.HASH_TAGS
        (removeLoop DICOMDeidentifier.REMOVE_TAGS ds.elems)) with
  | error e =>
    rw [deidentify_dl_err st ds a b e hdl] at hr
    exact absurd hr (by simp)
  | ok es3 =>
    cases has : ageStep es3 with
    | error e =>
      rw [deidentify_age_err st ds a b e es3 hdl has] at hr
      exact absurd hr (by simp)
    | ok es4 =>
      rw [deidentify_ok_eq st ds a b es3 es4 hdl has] at hr
      exact ⟨es3, es4, rfl, has, (Except.ok.inj hr).symm⟩

/-- The marker, pixel-data and private-tag steps do not change any other
standard element. -/
theorem final_lookup (es4 : List (String × String)) (b : Bool) (t : String)
    (h1 : t ≠ "PatientIdentityRemoved") (h2 : t ≠ "DeidentificationMethod")
    (h3 : t ≠ "PixelData") :
    lookupTag (finalElems b es4) t = lookupTag es4 t := by
  unfold finalElems
  rw [lookupTag_set_other _ t _ _ h2, lookupTag_set_other _ t _ _ h1]
  cases b with
  | false => rfl
  | true =>
    show lookupTag (match lookupTag es4 "PixelData" with
      | some _ => eraseTag es4 "PixelData"
      | none => es4) t = lookupTag es4 t
    cases hp : lookupTag es4 "PixelData" with
    | none => rfl
    | some v => exact lookupTag_erase_other es4 t _ h3

deriving instance DecidableEq for Except

/-- Elements of a run's output dataset (empty list for a failed run); used to
state concrete results compactly. -/
def deidElems (r : Except DeidError (Dataset × AuditEvent × DICOMDeidentifier)) :
    List (String × String) :=
  match r with
  | .ok (d, _, _) => d.elems
  | .error _ => []

/-- Whether a run succeeded. -/
def deidIsOk (r : Except DeidError (Dataset × AuditEvent × DICOMDeidentifier)) : Bool :=
  match r with
  | .ok _ => true
  | .error _ => false

/-- Feed a run's output dataset and state into a second run (reprocessing). -/
def secondRun (st : DICOMDeidentifier) (ds : Dataset) (a b : Bool) :
    Except DeidError (Dataset × AuditEvent × DICOMDeidentifier) :=
  match st.deidentify_dataset ds a b with
  | .ok (d, _, s) => s.deidentify_dataset d a b
  | .error e => .error e

theorem get_date_shift_fixed (st : DICOMDeidentifier) (pid : String) (d : Int)
    (h : st.date_shift_days = some d) : st.get_date_shift pid = (d, st) := by
  unfold DICOMDeidentifier.get_date_shift
  rw [h]

theorem get_date_shift_hit (st : DICOMDeidentifier) (pid : String) (v : Int)
    (h : st.date_shift_days = none) (h2 : lookupTag st.patient_date_shifts pid = some v) :
    st.get_date_shift pid = (v, st) := by
  unfold DICOMDeidentifier.get_date_shift
  rw [h]
  dsimp only
  rw [h2]

theorem get_date_shift_miss (st : DICOMDeidentifier) (pid : String)
    (h : st.date_shift_days = none) (h2 : lookupTag st.patient_date_shifts pid = none) :
    st.get_date_shift pid = (((md5IntOfString (pid ++ st.salt) % 730 : Nat) : Int) - 365,
      { st with patient_date_shifts := st.patient_date_shifts ++
          [(pid, ((md5IntOfString (pid ++ st.salt) % 730 : Nat) : Int) - 365)] }) := by
  unfold DICOMDeidentifier.get_date_shift
  rw [h]
  dsimp only
  rw [h2]

theorem lookupTag_append_self {α : Type} (l : List (String × α)) (k : String) (x : α)
    (h : lookupTag l k = none) : lookupTag (l ++ [(k, x)]) k = some x := by
  induction l with
  | nil => simp [lookupTag]
  | cons kv rest ih =>
    obtain ⟨u, w⟩ := kv
    simp only [lookupTag] at h ⊢
    by_cases hu : u = k
    · rw [if_pos hu] at h
      exact absurd h (by simp)
    · rw [if_neg hu] at h ⊢
      exact ih h

/-- The registry entry written by a first-sight derivation is read back
unchanged by every later call. -/
theorem get_date_shift_stable (st : DICOMDeidentifier) (pid : String) :
    ((st.get_date_shift pid).2.get_date_shift pid).1 = (st.get_date_shift pid).1 := by
  cases hd : st.date_shift_days with
  | some d => rw [get_date_shift_fixed st pid d hd, get_date_shift_fixed st pid d hd]
  | none =>
    cases hl : lookupTag st.patient_date_shifts pid with
    | some v =>
      rw [get_date_shift_hit st pid v hd hl, get_date_shift_hit st pid v hd hl]
    | none =>
      have hres := get_date_shift_hit
        { salt := st.salt, date_shift_days := st.date_shift_days,
          patient_date_shifts := st.patient_date_shifts ++
            [(pid, ((md5IntOfString (pid ++ st.salt) % 730 : Nat) : Int) - 365)] }
        pid _ hd (lookupTag_append_self _ pid _ hl)
      rw [get_date_shift_miss st pid hd hl]
      dsimp only
      rw [hres]

/-- C2 (counterexample): the spec asserts the derived offset range [-365, 365]
with both endpoints attainable, but `(hash % 730) - 365` can never reach
`+365`: no derivation ever returns 365. -/
theorem C2_counterexample :
    (∃ (st : DICOMDeidentifier) (pid : String), st.date_shift_days = none ∧
      lookupTag st.patient_date_shifts pid = none ∧ (st.get_date_shift pid).1 = 365) = False := by
  apply eq_false
  rintro ⟨st, pid, h1, h2, h3⟩
  rw [get_date_shift_miss st pid h1 h2] at h3
  have hm : md5IntOfString (pid ++ st.salt) % 730 < 730 := Nat.mod_lt _ (by omega)
  dsimp only at h3
  omega

/-- C2: for an unseen patient id with no fixed shift configured, the offset is
`int(md5(id + salt), 16) % 730 - 365`, always within [-365, 364]; both of
those endpoints are attainable ("P617" and "P155" under the default salt). -/
theorem C2_offset_derivation :
    (∀ (st : DICOMDeidentifier) (pid : String), st.date_shift_days = none →
      lookupTag st.patient_date_shifts pid = none →
      (st.get_date_shift pid).1 = ((md5IntOfString (pid ++ st.salt) % 730 : Nat) : Int) - 365 ∧
      -365 ≤ (st.get_date_shift pid).1 ∧ (st.get_date_shift pid).1 ≤ 364) ∧
    ((DICOMDeidentifier.init none none).get_date_shift "P617").1 = -365 ∧
    ((DICOMDeidentifier.init none none).get_date_shift "P155").1 = 364 := by
  refine ⟨fun st pid h1 h2 => ?_, by decide, by decide⟩
  rw [get_date_shift_miss st pid h1 h2]
  have hm : md5IntOfString (pid ++ st.salt) % 730 < 730 := Nat.mod_lt _ (by omega)
  refine ⟨rfl, ?_, ?_⟩ <;> dsimp only <;> omega

/-- Modelled from the spec: the fatal, construction-time
`PolicyConfigurationError` of the spec's error taxonomy. No such error class
exists anywhere in the source. -/
inductive PolicyConfigurationError where
  | disjointnessViolated
deriving DecidableEq

/-- Modelled from the spec: "constructing a policy where a tag appears in both
`removeSet` and `hashSet` must fail at construction with
`PolicyConfigurationError`". The source's constructor takes no tag sets and
performs no validation; this definition exists only to state what the spec
demands. -/
def specPolicyValidate (removeSet hashSet : List String) :
    Except PolicyConfigurationError Unit :=
  if removeSet.inter hashSet = [] then .ok () else .error .disjointnessViolated

/-- C3 (counterexample): the spec's construction-time validation would reject
an overlapping policy, but the code's `__init__` takes only `salt` and
`date_shift_days`, performs no check, and returns normally on every input;
the tag sets are fixed class constants (and happen never to overlap). -/
theorem C3_counterexample :
    specPolicyValidate ["PatientID"] DICOMDeidentifier.HASH_TAGS =
      .error .disjointnessViolated ∧
    DICOMDeidentifier.init (some "s") (some 100) = ⟨"s", some 100, []⟩ ∧
    DICOMDeidentifier.REMOVE_TAGS.inter DICOMDeidentifier.HASH_TAGS = [] := by
  refine ⟨by decide, rfl, by decide⟩

/-- C3: the constructor accepts any `salt` and `date_shift_days`, always
succeeds (its body is three assignments), and no configurable tag sets exist:
the remove/hash/date dispositions are disjoint class constants, so an
overlapping policy is impossible to construct and no
`PolicyConfigurationError` is ever raised (none exists in the code). -/
theorem C3_no_construction_validation :
    DICOMDeidentifier.REMOVE_TAGS.inter DICOMDeidentifier.HASH_TAGS = [] ∧
    DICOMDeidentifier.REMOVE_TAGS.inter DICOMDeidentifier.DATE_TAGS = [] ∧
    DICOMDeidentifier.HASH_TAGS.inter DICOMDeidentifier.DATE_TAGS = [] ∧
    (∀ (s : Option String) (d : Option Int),
      (DICOMDeidentifier.init s d).date_shift_days = d ∧
      (DICOMDeidentifier.init s d).patient_date_shifts = []) := by
  exact ⟨by decide, by decide, by decide, fun s d => ⟨rfl, rfl⟩⟩

/-- C6: offset derivation is deterministic: a repeated call on the updated
instance returns the same integer, and two instances with equal salts, no
fixed shift and the patient unseen derive the same integer (so fresh
registries with the same salt agree). -/
theorem C6_offset_determinism :
    (∀ (st : DICOMDeidentifier) (pid : String),
      ((st.get_date_shift pid).2.get_date_shift pid).1 = (st.get_date_shift pid).1) ∧
    (∀ (st1 st2 : DICOMDeidentifier) (pid : String), st1.salt = st2.salt →
      st1.date_shift_days = none → st2.date_shift_days = none →
      lookupTag st1.patient_date_shifts pid = none →
      lookupTag st2.patient_date_shifts pid = none →
      (st1.get_date_shift pid).1 = (st2.get_date_shift pid).1) := by
  refine ⟨get_date_shift_stable, fun st1 st2 pid hsalt h1 h2 g1 g2 => ?_⟩
  rw [get_date_shift_miss st1 pid h1 g1, get_date_shift_miss st2 pid h2 g2]
  dsimp only
  rw [hsalt]

theorem hashLoop_mem (st : DICOMDeidentifier) (ts : List String)
    (es : List (String × String)) (t : String) (h : t ∈ ts) (hnd : ts.Nodup) :
    lookupTag (hashLoop st ts es) t = (lookupTag es t).map st.hash_value := by
  induction ts generalizing es with
  | nil => exact absurd h (List.not_mem_nil t)
  | cons u us ih =>
    obtain ⟨hun, husn⟩ := List.nodup_cons.mp hnd
    simp only [hashLoop]
    rcases List.mem_cons.mp h with he | hm
    · subst he
      cases hv : lookupTag es t with
      | none => rw [hashLoop_not_mem st us es t hun, hv]; rfl
      | some v => rw [hashLoop_not_mem st us _ t hun, lookupTag_set_self]; rfl
    · have htu : t ≠ u := fun g => hun (g ▸ hm)
      cases hv : lookupTag es u with
      | none => exact ih es hm husn
      | some v => rw [ih _ hm husn, lookupTag_set_other es t u _ htu]

/-- A `PatientAge` value on which a later age-capping pass cannot raise:
absent, not `Y`-suffixed, or with a parseable numeric prefix. -/
def ageSafe (v : Option String) : Prop :=
  match v with
  | none => True
  | some a => endsWithY a = true → (pyIntOfString (a.dropRight 1)).isSome = true

theorem ageStep_safe_out (es es4 : List (String × String))
    (hr : ageStep es = .ok es4) : ageSafe (lookupTag es4 "PatientAge") := by
  unfold ageStep at hr
  split at hr
  · rename_i hl
    simp only [Except.ok.injEq] at hr
    rw [← hr, hl]
    trivial
  · rename_i a hl
    split at hr
    · rename_i hy
      split at hr
      · exact absurd hr (by simp)
      · rename_i n hp
        split at hr
        · simp only [Except.ok.injEq] at hr
          rw [← hr, lookupTag_set_self]
          intro _
          decide
        · simp only [Except.ok.injEq] at hr
          rw [← hr, hl]
          intro _
          rw [hp]
          rfl
    · rename_i hy
      simp only [Except.ok.injEq] at hr
      rw [← hr, hl]
      intro hcon
      exact absurd hcon hy

theorem ageStep_of_safe (es : List (String × String))
    (h : ageSafe (lookupTag es "PatientAge")) :
    ageStep es ≠ .error .valueError := by
  unfold ageStep
  cases hl : lookupTag es "PatientAge" with
  | none => simp
  | some a =>
    rw [hl] at h
    dsimp only
    by_cases hy : endsWithY a = true
    · rw [if_pos hy]
      have hs := h hy
      cases hp : pyIntOfString (a.dropRight 1) with
      | none => rw [hp] at hs; exact absurd hs (by decide)
      | some n =>
        dsimp only
        by_cases hn : n > 89
        · rw [if_pos hn]; simp
        · rw [if_neg hn]; simp
    · rw [if_neg hy]; simp

theorem deidentify_err (st : DICOMDeidentifier) (ds : Dataset) (a b : Bool) (e : DeidError)
    (hr : st.deidentify_dataset ds a b = .error e) :
    dateLoop (st.get_date_shift ((lookupTag ds.elems "PatientID").getD "unknown")).1
      DICOMDeidentifier.DATE_TAGS
      (hashLoop st DICOMDeidentifier.HASH_TAGS
        (removeLoop DICOMDeidentifier.REMOVE_TAGS ds.elems)) = .error e ∨
    (∃ es3,
      dateLoop (st.get_date_shift ((lookupTag ds.elems "PatientID").getD "unknown")).1
        DICOMDeidentifier.DATE_TAGS
        (hashLoop st DICOMDeidentifier.HASH_TAGS
          (removeLoop DICOMDeidentifier.REMOVE_TAGS ds.elems)) = .ok es3 ∧
      ageStep es3 = .error e) := by
  cases hdl : dateLoop (st.get_date_shift ((lookupTag ds.elems "PatientID").getD "unknown")).1
      DICOMDeidentifier.DATE_TAGS
      (hashLoop st DICOMDeidentifier.HASH_TAGS
        (removeLoop DICOMDeidentifier.REMOVE_TAGS ds.elems)) with
  | error e2 =>
    rw [deidentify_dl_err st ds a b e2 hdl] at hr
    exact Or.inl (by rw [Except.error.inj hr])
  | ok es3 =>
    cases has : ageStep es3 with
    | error e2 =>
      rw [deidentify_age_err st ds a b e2 es3 hdl has] at hr
      exact Or.inr ⟨es3, rfl, Except.error.inj hr ▸ has⟩
    | ok es4 =>
      rw [deidentify_ok_eq st ds a b es3 es4 hdl has] at hr
      exact absurd hr (by simp)

/-- C10: when `PatientID` is absent from the input, the run derives the date
shift from the literal string "unknown": the audit event reports "unknown"
as the original patient id and carries the offset for "unknown", and any
later patient-id-less record processed by the updated instance receives the
same offset. -/
theorem C10_missing_pid_fallback (st : DICOMDeidentifier) (ds : Dataset) (a b : Bool)
    (ds2 : Dataset) (ev : AuditEvent) (st2 : DICOMDeidentifier)
    (hp : lookupTag ds.elems "PatientID" = none)
    (hr : st.deidentify_dataset ds a b = .ok (ds2, ev, st2)) :
    ev.original_patient_id = "unknown" ∧
    ev.date_shift_days = (st.get_date_shift "unknown").1 ∧
    (st2.get_date_shift "unknown").1 = (st.get_date_shift "unknown").1 := by
  obtain ⟨es3, es4, hdl, has, heq⟩ := deidentify_ok st ds a b ds2 ev st2 hr
  rw [hp] at heq
  simp only [Option.getD_none, Prod.mk.injEq] at heq
  obtain ⟨h1, h2, h3⟩ := heq
  refine ⟨by rw [h2], by rw [h2], ?_⟩
  rw [h3]
  exact get_date_shift_stable st "unknown"

/-- C9: every time tag present in the input keeps exactly its original value
in the output dataset of a successful run; no step of the transformation
reads or writes the time tags. -/
theorem C9_time_passthrough (st : DICOMDeidentifier) (ds : Dataset) (a b : Bool)
    (ds2 : Dataset) (ev : AuditEvent) (st2 : DICOMDeidentifier) (t : String)
    (ht : t ∈ DICOMDeidentifier.TIME_TAGS)
    (hr : st.deidentify_dataset ds a b = .ok (ds2, ev, st2)) :
    lookupTag ds2.elems t = lookupTag ds.elems t := by
  have hf := (show ∀ x ∈ DICOMDeidentifier.TIME_TAGS,
      ¬ x ∈ DICOMDeidentifier.REMOVE_TAGS ∧ ¬ x ∈ DICOMDeidentifier.HASH_TAGS ∧
      ¬ x ∈ DICOMDeidentifier.DATE_TAGS ∧ x ≠ "PatientAge" ∧
      x ≠ "PatientIdentityRemoved" ∧ x ≠ "DeidentificationMethod" ∧ x ≠ "PixelData"
    by decide) t ht
  obtain ⟨hf1, hf2, hf3, hf4, hf5, hf6, hf7⟩ := hf
  obtain ⟨es3, es4, hdl, has, heq⟩ := deidentify_ok st ds a b ds2 ev st2 hr
  simp only [Prod.mk.injEq] at heq
  obtain ⟨h1, h2, h3⟩ := heq
  have hds2 : ds2.elems = finalElems b es4 := by rw [h1]
  rw [hds2, final_lookup es4 b t hf5 hf6 hf7,
    ageStep_other es3 es4 t hf4 has,
    dateLoop_not_mem _ _ _ _ t hf3 hdl,
    hashLoop_not_mem st _ _ t hf2,
    removeLoop_not_mem _ _ t hf1]

/-- C5: age capping: a `Y`-suffixed age with parseable numeric prefix is
rewritten to "090Y" exactly when the value exceeds 89, a non-`Y` unit is
left as-is, and on the spec's boundary inputs "089Y" and "090Y" are
unchanged while "092Y" and "150Y" become "090Y". -/
theorem C5_age_capping :
    (∀ (es : List (String × String)) (a : String) (n : Int),
      lookupTag es "PatientAge" = some a → endsWithY a = true →
      pyIntOfString (a.dropRight 1) = some n →
      ageStep es = .ok (if n > 89 then setTag es "PatientAge" "090Y" else es)) ∧
    (∀ (es : List (String × String)) (a : String),
      lookupTag es "PatientAge" = some a → endsWithY a = false →
      ageStep es = .ok es) ∧
    ageStep [("PatientAge", "089Y")] = .ok [("PatientAge", "089Y")] ∧
    ageStep [("PatientAge", "090Y")] = .ok [("PatientAge", "090Y")] ∧
    ageStep [("PatientAge", "092Y")] = .ok [("PatientAge", "090Y")] ∧
    ageStep [("PatientAge", "150Y")] = .ok [("PatientAge", "090Y")] ∧
    ageStep [("PatientAge", "045M")] = .ok [("PatientAge", "045M")] := by
  refine ⟨?_, ?_, by decide, by decide, by decide, by decide, by decide⟩
  · intro es a n h1 h2 h3
    unfold ageStep
    rw [h1]
    dsimp only
    rw [if_pos h2, h3]
    dsimp only
    by_cases hn : n > 89
    · rw [if_pos hn, if_pos hn]
    · rw [if_neg hn, if_neg hn]
  · intro es a h1 h2
    unfold ageStep
    rw [h1]
    dsimp only
    rw [if_neg (by simp [h2])]

/-- C1 (counterexample): on the spec's own concrete scenario (salt "s",
PatientID "P1") the output PatientID is not the 16-hex-character prefix of
sha256 of "P1:s": the code hashes `value + salt` with no ":" separator. -/
theorem C1_counterexample :
    (lookupTag (deidElems ((DICOMDeidentifier.init (some "s") (some 100)).deidentify_dataset
        ⟨[("PatientID", "P1")], []⟩ false false)) "PatientID" =
      some ((sha256HexStr "P1:s").take 16)) = False :=
  eq_false (by decide)

/-- C1: every hash-set tag present in the input is replaced, in the output of
a successful run, by the first 16 hex characters of sha256 of the value
concatenated directly with the salt (no ":" separator). -/
theorem C1_hashing (st : DICOMDeidentifier) (ds : Dataset) (a b : Bool)
    (ds2 : Dataset) (ev : AuditEvent) (st2 : DICOMDeidentifier) (t v : String)
    (ht : t ∈ DICOMDeidentifier.HASH_TAGS)
    (hv : lookupTag ds.elems t = some v)
    (hr : st.deidentify_dataset ds a b = .ok (ds2, ev, st2)) :
    lookupTag ds2.elems t = some ((sha256HexStr (v ++ st.salt)).take 16) := by
  have hf := (show ∀ x ∈ DICOMDeidentifier.HASH_TAGS,
      ¬ x ∈ DICOMDeidentifier.REMOVE_TAGS ∧ ¬ x ∈ DICOMDeidentifier.DATE_TAGS ∧
      x ≠ "PatientAge" ∧ x ≠ "PatientIdentityRemoved" ∧
      x ≠ "DeidentificationMethod" ∧ x ≠ "PixelData" by decide) t ht
  obtain ⟨hf1, hf2, hf3, hf4, hf5, hf6⟩ := hf
  obtain ⟨es3, es4, hdl, has, heq⟩ := deidentify_ok st ds a b ds2 ev st2 hr
  simp only [Prod.mk.injEq] at heq
  obtain ⟨h1, h2, h3⟩ := heq
  have hds2 : ds2.elems = finalElems b es4 := by rw [h1]
  rw [hds2, final_lookup es4 b t hf4 hf5 hf6,
    ageStep_other es3 es4 t hf3 has,
    dateLoop_not_mem _ _ _ _ t hf2 hdl,
    hashLoop_mem st _ _ t ht (by decide),
    removeLoop_not_mem _ _ t hf1, hv]
  rfl

theorem C1_hashing_witness :
    "PatientID" ∈ DICOMDeidentifier.HASH_TAGS ∧
    lookupTag [("PatientID", "P1")] "PatientID" = some "P1" ∧
    (DICOMDeidentifier.init (some "s") (some 100)).deidentify_dataset
      ⟨[("PatientID", "P1")], []⟩ false false =
      .ok (⟨[("PatientID", "28d9b1ebe28345f0"), ("PatientIdentityRemoved", "YES"),
          ("DeidentificationMethod",
            "HIPAA Safe Harbor with date shifting and ID hashing")], []⟩,
        ⟨"P1", "28d9b1ebe28345f0", 100⟩, ⟨"s", some 100, []⟩) ∧
    lookupTag [("PatientID", "28d9b1ebe28345f0"), ("PatientIdentityRemoved", "YES"),
        ("DeidentificationMethod",
          "HIPAA Safe Harbor with date shifting and ID hashing")] "PatientID" =
      some ((sha256HexStr ("P1" ++
        (DICOMDeidentifier.init (some "s") (some 100)).salt)).take 16) :=
  ⟨by decide, by decide, by decide,
    C1_hashing (DICOMDeidentifier.init (some "s") (some 100)) ⟨[("PatientID", "P1")], []⟩
      false false
      ⟨[("PatientID", "28d9b1ebe28345f0"), ("PatientIdentityRemoved", "YES"),
        ("DeidentificationMethod",
          "HIPAA Safe Harbor with date shifting and ID hashing")], []⟩
      ⟨"P1", "28d9b1ebe28345f0", 100⟩ ⟨"s", some 100, []⟩ "PatientID" "P1"
      (by decide) (by decide) (by decide)⟩

/-- C4 (code bug): a malformed `Y`-suffixed age value ("ABCY") makes
`deidentify_dataset` raise `ValueError` from the unguarded `int()` call
instead of leaving the value and completing, while a malformed date value is
indeed left unchanged and does not abort the call. -/
theorem C4_malformed_age_raises :
    (DICOMDeidentifier.init (some "s") (some 100)).deidentify_dataset
      ⟨[("PatientAge", "ABCY")], []⟩ false false = .error .valueError ∧
    deidElems ((DICOMDeidentifier.init (some "s") (some 100)).deidentify_dataset
      ⟨[("StudyDate", "BADDATE1")], []⟩ false false) =
      [("StudyDate", "BADDATE1"), ("PatientIdentityRemoved", "YES"),
        ("DeidentificationMethod", "HIPAA Safe Harbor with date shifting and ID hashing")] :=
  ⟨by decide, by decide⟩

/-- C7 (counterexample): re-running `deidentify_dataset` on an
already-processed record can raise: with a fixed shift of 30000 days the
first run maps StudyDate "99000101" to "99820220" and succeeds, and the
second run overflows `datetime`'s year range. -/
theorem C7_counterexample :
    secondRun (DICOMDeidentifier.init none (some 30000))
      ⟨[("StudyDate", "99000101")], []⟩ false false = .error .overflowError ∧
    deidIsOk ((DICOMDeidentifier.init none (some 30000)).deidentify_dataset
      ⟨[("StudyDate", "99000101")], []⟩ false false) = true :=
  ⟨by decide, by decide⟩

/-- C7: removal completeness holds (every remove-set tag is absent from the
output of a successful run) and skipping an absent tag is a no-op, and
re-running on an already-processed record can never raise `ValueError`; the
only reprocessing failure mode is the date-shift `OverflowError`. -/
theorem C7_removal_and_reprocessing :
    (∀ (st : DICOMDeidentifier) (ds : Dataset) (a b : Bool) (ds2 : Dataset)
      (ev : AuditEvent) (st2 : DICOMDeidentifier),
      st.deidentify_dataset ds a b = .ok (ds2, ev, st2) →
      ∀ t ∈ DICOMDeidentifier.REMOVE_TAGS, lookupTag ds2.elems t = none) ∧
    (∀ (t : String) (es : List (String × String)), lookupTag es t = none →
      removeLoop [t] es = es) ∧
    (∀ (st : DICOMDeidentifier) (ds : Dataset) (a b : Bool),
      deidIsOk (st.deidentify_dataset ds a b) = true →
      secondRun st ds a b ≠ .error .valueError) := by
  refine ⟨?_, ?_, ?_⟩
  · intro st ds a b ds2 ev st2 hr t ht
    have hf := (show ∀ x ∈ DICOMDeidentifier.REMOVE_TAGS,
        ¬ x ∈ DICOMDeidentifier.HASH_TAGS ∧ ¬ x ∈ DICOMDeidentifier.DATE_TAGS ∧
        x ≠ "PatientAge" ∧ x ≠ "PatientIdentityRemoved" ∧
        x ≠ "DeidentificationMethod" ∧ x ≠ "PixelData" by decide) t ht
    obtain ⟨hf1, hf2, hf3, hf4, hf5, hf6⟩ := hf
    obtain ⟨es3, es4, hdl, has, heq⟩ := deidentify_ok st ds a b ds2 ev st2 hr
    simp only [Prod.mk.injEq] at heq
    obtain ⟨h1, h2, h3⟩ := heq
    have hds2 : ds2.elems = finalElems b es4 := by rw [h1]
    rw [hds2, final_lookup es4 b t hf4 hf5 hf6,
      ageStep_other es3 es4 t hf3 has,
      dateLoop_not_mem _ _ _ _ t hf2 hdl,
      hashLoop_not_mem st _ _ t hf1]
    exact removeLoop_mem _ ds.elems t ht
  · intro t es h
    simp only [removeLoop, h]
  · intro st ds a b hok hcon
    cases hrun : st.deidentify_dataset ds a b with
    | error e => rw [hrun] at hok; exact absurd hok (by simp [deidIsOk])
    | ok trip =>
      obtain ⟨ds2, ev, st2⟩ := trip
      have hcon2 : st2.deidentify_dataset ds2 a b = .error .valueError := by
        unfold secondRun at hcon
        rw [hrun] at hcon
        exact hcon
      rcases deidentify_err st2 ds2 a b .valueError hcon2 with hdl2 | ⟨es3', hdl2, has2⟩
      · exact dateLoop_no_valueError _ _ _ hdl2
      · obtain ⟨es3, es4, hdl, has, heq⟩ := deidentify_ok st ds a b ds2 ev st2 hrun
        simp only [Prod.mk.injEq] at heq
        obtain ⟨h1, h2, h3⟩ := heq
        have hds2 : ds2.elems = finalElems b es4 := by rw [h1]
        have hsafe : ageSafe (lookupTag es3' "PatientAge") := by
          rw [dateLoop_not_mem _ _ _ _ _ (by decide) hdl2,
            hashLoop_not_mem st2 _ _ _ (by decide),
            removeLoop_not_mem _ _ _ (by decide),
            hds2, final_lookup es4 b _ (by decide) (by decide) (by decide)]
          exact ageStep_safe_out es3 es4 has
        exact ageStep_of_safe es3' hsafe has2

/-- C8 (counterexample): "99991231" is a valid 8-digit date, yet shifting it
by +1 raises `OverflowError` instead of returning a date, so the claimed
round trip for every valid date and every offset fails. -/
theorem C8_counterexample :
    strptimeYmd "99991231" = some (9999, 12, 31) ∧ validYmd 9999 12 31 ∧
    shift_date "99991231" 1 = .error () :=
  ⟨by decide, by decide, by decide⟩

/-- C8: the date-shift round trip holds whenever both shifts stay inside
`datetime`'s representable range: if shifting a parseable date by `+d`
succeeds with an 8-character result, shifting that result by `-d` returns
the original string. -/
theorem C8_shift_roundtrip (s s₁ : String) (y m d : Nat) (dd : Int)
    (hp : strptimeYmd s = some (y, m, d)) (hy : 1000 ≤ y)
    (h1 : shift_date s dd = .ok (some s₁)) (hl : s₁.length = 8) :
    shift_date s₁ (-dd) = .ok (some s) :=
  shift_roundtrip s s₁ y m d dd hp hy h1 hl

theorem C8_shift_roundtrip_witness :
    strptimeYmd "20230615" = some (2023, 6, 15) ∧ (1000 : Nat) ≤ 2023 ∧
    shift_date "20230615" 100 = .ok (some "20230923") ∧
    String.length "20230923" = 8 ∧
    shift_date "20230923" (-100) = .ok (some "20230615") :=
  ⟨by decide, by decide, by decide, by decide,
    C8_shift_roundtrip "20230615" "20230923" 2023 6 15 100 (by decide) (by decide)
      (by decide) (by decide)⟩

theorem C9_time_passthrough_witness :
    "StudyTime" ∈ DICOMDeidentifier.TIME_TAGS ∧
    (DICOMDeidentifier.init (some "s") (some 100)).deidentify_dataset
      ⟨[("StudyTime", "120000")], []⟩ false false =
      .ok (⟨[("StudyTime", "120000"), ("PatientIdentityRemoved", "YES"),
          ("DeidentificationMethod",
            "HIPAA Safe Harbor with date shifting and ID hashing")], []⟩,
        ⟨"unknown", "", 100⟩, ⟨"s", some 100, []⟩) ∧
    lookupTag [("StudyTime", "120000"), ("PatientIdentityRemoved", "YES"),
        ("DeidentificationMethod",
          "HIPAA Safe Harbor with date shifting and ID hashing")] "StudyTime" =
      lookupTag [("StudyTime", "120000")] "StudyTime" :=
  ⟨by decide, by decide,
    C9_time_passthrough (DICOMDeidentifier.init (some "s") (some 100))
      ⟨[("StudyTime", "120000")], []⟩ false false
      ⟨[("StudyTime", "120000"), ("PatientIdentityRemoved", "YES"),
        ("DeidentificationMethod",
          "HIPAA Safe Harbor with date shifting and ID hashing")], []⟩
      ⟨"unknown", "", 100⟩ ⟨"s", some 100, []⟩ "StudyTime" (by decide) (by decide)⟩

theorem C10_missing_pid_fallback_witness :
    lookupTag (⟨[], []⟩ : Dataset).elems "PatientID" = none ∧
    (DICOMDeidentifier.init none none).deidentify_dataset ⟨[], []⟩ false false =
      .ok (⟨[("PatientIdentityRemoved", "YES"),
          ("DeidentificationMethod",
            "HIPAA Safe Harbor with date shifting and ID hashing")], []⟩,
        ⟨"unknown", "", -167⟩,
        ⟨"medical-imaging-pipeline-default-salt", none, [("unknown", -167)]⟩) ∧
    ((⟨"unknown", "", -167⟩ : AuditEvent).original_patient_id = "unknown" ∧
      (⟨"unknown", "", -167⟩ : AuditEvent).date_shift_days =
        ((DICOMDeidentifier.init none none).get_date_shift "unknown").1 ∧
      ((⟨"medical-imaging-pipeline-default-salt", none,
          [("unknown", -167)]⟩ : DICOMDeidentifier).get_date_shift "unknown").1 =
        ((DICOMDeidentifier.init none none).get_date_shift "unknown").1) :=
  ⟨rfl, by decide,
    C10_missing_pid_fallback (DICOMDeidentifier.init none none) ⟨[], []⟩ false false
      ⟨[("PatientIdentityRemoved", "YES"),
        ("DeidentificationMethod",
          "HIPAA Safe Harbor with date shifting and ID hashing")], []⟩
      ⟨"unknown", "", -167⟩
      ⟨"medical-imaging-pipeline-default-salt", none, [("unknown", -167)]⟩
      rfl (by decide)⟩
